import Mathlib

/-!
# staticnet: IPv4 receive / transmit path

A shallow embedding of `src/net/ipv4/IPv4Protocol.cpp` (the Internet checksum, the
pseudo-header checksum, address classification, the receive filter `OnRxPacket`, the
allocation `GetTxPacket` and the finalisation `SendTxPacket`), of
`TCPProtocol::SendTxSegment` from `src/net/tcp/TCPProtocol.h`, and of the helpers
`StringMatchWithLength` and `WriteUint32` from `src/ssh/SSHTransportServer.h`.

Conventions of the embedding

* A byte is a `Fin 256`; every other machine integer is a `Nat`, reduced explicitly
  (`% 2 ^ 32`, `% 65536`) wherever the C++ type narrows.
* A pointer to readable memory is a function `Nat → Byte` indexed from the pointer.  The
  receive buffer is a full MTU in the source, so every index the code reads is readable.
* The host is little-endian (the code byte-swaps with `__builtin_bswap16` to obtain
  network order), so a `uint16_t` at byte offset `o` has value `mem o + 256 * mem (o + 1)`.
* Calls into the upper layers (`m_icmpv4->OnRxPacket`, `m_tcp->OnRxPacket`, the UDP
  `printf`) are recorded as the value returned by `OnRxPacket`.
-/

namespace StaticNet

/-! ## Machine-level helpers -/

/-- One octet. -/
abbrev Byte := Fin 256

/-- Readable memory seen from a pointer: the octet at each offset. -/
abbrev Mem := Nat → Byte

/-- The compiler builtin `__builtin_bswap16` on a value converted to `uint16_t`. -/
def __builtin_bswap16 (x : Nat) : Nat := (x % 256) * 256 + (x / 256) % 256

/-- A `uint16_t` load at byte offset `off` on the little-endian host. -/
def read16 (mem : Mem) (off : Nat) : Nat := (mem off).val + 256 * (mem (off + 1)).val

/-- A single octet store. -/
def write8 (mem : Mem) (off : Nat) (v : Nat) : Mem :=
  fun i => if i = off then ⟨v % 256, Nat.mod_lt _ (by decide)⟩ else mem i

/-- A `uint16_t` store at byte offset `off` on the little-endian host (the value is
narrowed to 16 bits). -/
def write16 (mem : Mem) (off : Nat) (v : Nat) : Mem :=
  write8 (write8 mem off (v % 256)) (off + 1) (v / 256 % 256)

/-- The memory holding the octets of `l` (zero past its end). -/
def memOfList (l : List Byte) : Mem := fun i => l.getD i 0

/-- The C++ expression `~x` narrowed to `uint16_t`. -/
def not16 (x : Nat) : Nat := 65535 - x % 65536

/-! ## Addresses and configuration -/

/-- Modelled from the spec: `IPv4Address` (declared in a header that is not under `src/`):
"4 octets; value type; equality by octet sequence".  The fields are `m_octets[0..3]`. -/
structure IPv4Address where
  m_octets0 : Byte
  m_octets1 : Byte
  m_octets2 : Byte
  m_octets3 : Byte
deriving DecidableEq, Repr

/-- Modelled from the spec: `IPv4Config` (declared in a header that is not under `src/`):
"host unicast address, directed broadcast address, gateway". -/
structure IPv4Config where
  m_address : IPv4Address
  m_broadcast : IPv4Address
  m_gateway : IPv4Address
deriving DecidableEq, Repr

/-- The enum `IPv4Protocol::AddressType`. -/
inductive AddressType where
  | ADDR_BROADCAST
  | ADDR_MULTICAST
  | ADDR_UNICAST_OTHER
  | ADDR_UNICAST_US
deriving DecidableEq, Repr

/-- The part of the `IPv4Protocol` object the receive path reads: the configuration and
whether the `m_icmpv4` / `m_tcp` handler pointers are non-null. -/
structure IPv4Protocol where
  m_config : IPv4Config
  m_icmpv4 : Bool
  m_tcp : Bool
deriving DecidableEq, Repr

/-- Modelled from the spec: the `ipproto_t` constant for ICMP (the enum is not under
`src/`); the IANA protocol number. -/
def IP_PROTO_ICMP : Nat := 1

/-- Modelled from the spec: the `ipproto_t` constant for TCP (the enum is not under
`src/`); the IANA protocol number. -/
def IP_PROTO_TCP : Nat := 6

/-- Modelled from the spec: the `ipproto_t` constant for UDP (the enum is not under
`src/`); the IANA protocol number. -/
def IP_PROTO_UDP : Nat := 17

/-! ## The packet overlay

`IPv4Packet` is a packed struct laid over the driver's buffer; its declaration
(`IPv4Packet.h`) is not under `src/`.  The accessors below are the struct members in the
standard 20-byte layout named by the spec (section 6.4), read on the little-endian host. -/

/-- A pointer to an `IPv4Packet`: the buffer it is laid over. -/
abbrev IPv4Packet := Mem

/-- Modelled from the spec: member `m_versionAndHeaderLen`, octet 0. -/
def m_versionAndHeaderLen (packet : IPv4Packet) : Nat := (packet 0).val

/-- Modelled from the spec: member `m_dscpAndECN`, octet 1. -/
def m_dscpAndECN (packet : IPv4Packet) : Nat := (packet 1).val

/-- Modelled from the spec: member `m_totalLength`, the `uint16_t` at octets 2-3. -/
def m_totalLength (packet : IPv4Packet) : Nat := read16 packet 2

/-- Modelled from the spec: member `m_fragID`, the `uint16_t` at octets 4-5. -/
def m_fragID (packet : IPv4Packet) : Nat := read16 packet 4

/-- Modelled from the spec: member `m_flagsFragOffHigh`, octet 6. -/
def m_flagsFragOffHigh (packet : IPv4Packet) : Nat := (packet 6).val

/-- Modelled from the spec: member `m_fragOffLow`, octet 7. -/
def m_fragOffLow (packet : IPv4Packet) : Nat := (packet 7).val

/-- Modelled from the spec: member `m_ttl`, octet 8. -/
def m_ttl (packet : IPv4Packet) : Nat := (packet 8).val

/-- Modelled from the spec: member `m_protocol`, octet 9. -/
def m_protocol (packet : IPv4Packet) : Nat := (packet 9).val

/-- Modelled from the spec: member `m_headerChecksum`, the `uint16_t` at octets 10-11. -/
def m_headerChecksum (packet : IPv4Packet) : Nat := read16 packet 10

/-- Modelled from the spec: member `m_sourceAddress`, octets 12-15. -/
def m_sourceAddress (packet : IPv4Packet) : IPv4Address :=
  ⟨packet 12, packet 13, packet 14, packet 15⟩

/-- Modelled from the spec: member `m_destAddress`, octets 16-19. -/
def m_destAddress (packet : IPv4Packet) : IPv4Address :=
  ⟨packet 16, packet 17, packet 18, packet 19⟩

/-- An assignment to member `m_totalLength`. -/
def set_m_totalLength (packet : IPv4Packet) (v : Nat) : IPv4Packet := write16 packet 2 v

/-- An assignment to member `m_fragID`. -/
def set_m_fragID (packet : IPv4Packet) (v : Nat) : IPv4Packet := write16 packet 4 v

/-- An assignment to member `m_headerChecksum`. -/
def set_m_headerChecksum (packet : IPv4Packet) (v : Nat) : IPv4Packet := write16 packet 10 v

/-- Modelled from the spec: `IPv4Packet::HeaderLength()` (not under `src/`): four times the
low nibble of the version+IHL octet. -/
def HeaderLength (packet : IPv4Packet) : Nat := (m_versionAndHeaderLen packet &&& 0xf) * 4

/-- Modelled from the spec: `IPv4Packet::PayloadLength()` (not under `src/`): the total
length minus the header length, as a `uint16_t`. -/
def PayloadLength (packet : IPv4Packet) : Nat :=
  (m_totalLength packet + 65536 - HeaderLength packet) % 65536

/-- Modelled from the spec: `IPv4Packet::Payload()` (not under `src/`): the payload
pointer, as an offset from the packet pointer. -/
def Payload (packet : IPv4Packet) : Nat := HeaderLength packet

/-- Modelled from the spec: `IPv4Packet::ByteSwap()` (not under `src/`): converts the
multi-byte header fields (total length, fragment id, header checksum) between network and
host byte order, in place. -/
def ByteSwap (packet : IPv4Packet) : IPv4Packet :=
  let packet := set_m_totalLength packet (__builtin_bswap16 (m_totalLength packet))
  let packet := set_m_fragID packet (__builtin_bswap16 (m_fragID packet))
  set_m_headerChecksum packet (__builtin_bswap16 (m_headerChecksum packet))

/-! ## Checksum calculation -/

/-- The body of `InternetChecksum` from the `while` loop on: `p` is the byte offset of
`data16`, then the remaining `len` and the 32-bit accumulator `checksum`. -/
def checksumLoop (data : Mem) : Nat → Nat → Nat → Nat
  | p, len + 2, checksum =>
      let checksum := (checksum + __builtin_bswap16 (read16 data p)) % 2 ^ 32
      let checksum := ((checksum >>> 16) + (checksum &&& 0xffff)) % 2 ^ 32
      checksumLoop data (p + 2) len checksum
  | p, len, checksum =>
      if len &&& 1 ≠ 0 then
        let checksum := (checksum + __builtin_bswap16 (data p).val) % 2 ^ 32
        ((checksum >>> 16) + (checksum &&& 0xffff)) % 2 ^ 32
      else checksum

/-- The function `IPv4Protocol::InternetChecksum(data, len, initial)`; the `uint32_t`
accumulator is narrowed to the `uint16_t` return type. -/
def InternetChecksum (data : Mem) (len : Nat) (initial : Nat) : Nat :=
  checksumLoop data 0 len initial % 65536

/-- The function `IPv4Protocol::PseudoHeaderChecksum(packet, length)`. -/
def PseudoHeaderChecksum (packet : IPv4Packet) (length : Nat) : Nat :=
  let pseudoheader : List Byte :=
    [ (m_sourceAddress packet).m_octets0,
      (m_sourceAddress packet).m_octets1,
      (m_sourceAddress packet).m_octets2,
      (m_sourceAddress packet).m_octets3,
      (m_destAddress packet).m_octets0,
      (m_destAddress packet).m_octets1,
      (m_destAddress packet).m_octets2,
      (m_destAddress packet).m_octets3,
      0x0,
      packet 9,
      ⟨(length >>> 8) % 256, Nat.mod_lt _ (by decide)⟩,
      ⟨(length &&& 0xff) % 256, Nat.mod_lt _ (by decide)⟩ ]
  InternetChecksum (memOfList pseudoheader) pseudoheader.length 0

/-! ## Routing helpers -/

/-- The function `IPv4Protocol::GetAddressType(addr)`. -/
def GetAddressType (self : IPv4Protocol) (addr : IPv4Address) : AddressType :=
  if addr = self.m_config.m_address then
    .ADDR_UNICAST_US
  else if addr = self.m_config.m_broadcast then
    .ADDR_BROADCAST
  else if addr = ⟨255, 255, 255, 255⟩ then
    .ADDR_BROADCAST
  else if (addr.m_octets0.val &&& 0xf0) = 0xe0 then
    .ADDR_MULTICAST
  else
    .ADDR_UNICAST_OTHER

/-! ## Handler for incoming packets -/

/-- What `OnRxPacket` hands to the upper layers. -/
inductive RxDispatch where
  /-- No upper-layer call: the packet is dropped. -/
  | none
  /-- The call `m_icmpv4->OnRxPacket(payload, length, source)`. -/
  | icmpv4 (payload : Nat) (length : Nat) (sourceAddress : IPv4Address)
  /-- The call `m_tcp->OnRxPacket(payload, ipPayloadLength, source, pseudoHeaderChecksum)`. -/
  | tcp (payload : Nat) (ipPayloadLength : Nat) (sourceAddress : IPv4Address)
      (pseudoHeaderChecksum : Nat)
  /-- The placeholder `printf("got UDP packet TODO\n")`. -/
  | udpTodo
deriving DecidableEq, Repr

/-- The state after `OnRxPacket`: the packet buffer (byte-swapped in place once the
checksum has been accepted) and the upper-layer call made. -/
structure RxResult where
  packet : IPv4Packet
  dispatch : RxDispatch

/-- The function `IPv4Protocol::OnRxPacket(packet, ethernetPayloadLength)`. -/
def OnRxPacket (self : IPv4Protocol) (packet : IPv4Packet) (ethernetPayloadLength : Nat) :
    RxResult :=
  if 0xffff ≠ InternetChecksum packet (HeaderLength packet) 0 then
    ⟨packet, .none⟩
  else
    let packet := ByteSwap packet
    if m_versionAndHeaderLen packet ≠ 0x45 then
      ⟨packet, .none⟩
    else if m_totalLength packet < 20 ∨ m_totalLength packet > ethernetPayloadLength then
      ⟨packet, .none⟩
    else if (m_flagsFragOffHigh packet &&& 0xbf) ≠ 0 then
      ⟨packet, .none⟩
    else if m_fragOffLow packet ≠ 0 then
      ⟨packet, .none⟩
    else
      let type := GetAddressType self (m_destAddress packet)
      if type = .ADDR_UNICAST_OTHER then
        ⟨packet, .none⟩
      else
        let plen := PayloadLength packet
        if m_protocol packet = IP_PROTO_ICMP then
          if self.m_icmpv4 = true ∧ (type = .ADDR_UNICAST_US ∨ type = .ADDR_BROADCAST) then
            ⟨packet, .icmpv4 (Payload packet) (PayloadLength packet) (m_sourceAddress packet)⟩
          else
            ⟨packet, .none⟩
        else if m_protocol packet = IP_PROTO_TCP then
          if self.m_tcp = true ∧ type = .ADDR_UNICAST_US then
            ⟨packet, .tcp (Payload packet) plen (m_sourceAddress packet)
              (PseudoHeaderChecksum packet plen)⟩
          else
            ⟨packet, .none⟩
        else if m_protocol packet = IP_PROTO_UDP then
          if type = .ADDR_UNICAST_US then
            ⟨packet, .udpTodo⟩
          else
            ⟨packet, .none⟩
        else
          ⟨packet, .none⟩

/-! ## Handler for outbound packets -/

/-- What `SendTxPacket` hands to the Ethernet driver: the frame's payload length (set by
`frame->SetPayloadLength`) and the packet octets. -/
structure TxFrame where
  payloadLength : Nat
  packet : IPv4Packet

/-- The function `IPv4Protocol::SendTxPacket(packet, upperLayerLength)`;
`upperLayerLength` is a `size_t` and the sum is narrowed to the `uint16_t` field. -/
def SendTxPacket (packet : IPv4Packet) (upperLayerLength : Nat) : TxFrame :=
  let packet := set_m_totalLength packet ((HeaderLength packet + upperLayerLength) % 65536)
  let payloadLength := m_totalLength packet
  let packet := ByteSwap packet
  let packet := set_m_headerChecksum packet
    (not16 (__builtin_bswap16 (InternetChecksum packet 20 0)))
  ⟨payloadLength, packet⟩

/-! ## Allocation of outbound packets

`GetTxPacket` talks to two collaborators that are not under `src/`: the ARP cache
(`m_cache.Lookup`) and the Ethernet driver (`m_eth.GetTxFrame`).  They are passed to the
embedding as the members `m_cache` and `m_eth`; the calls made to them are recorded in the
result. -/

/-- Modelled from the spec: `MACAddress` (declared in a header that is not under `src/`):
"6 octets; value type". -/
structure MACAddress where
  m_address0 : Byte
  m_address1 : Byte
  m_address2 : Byte
  m_address3 : Byte
  m_address4 : Byte
  m_address5 : Byte
deriving DecidableEq, Repr

/-- Modelled from the spec: the constant `ETHERTYPE_IPV4` (not under `src/`); the IEEE
ethertype of IPv4. -/
def ETHERTYPE_IPV4 : Nat := 0x0800

/-- Modelled from the spec: the ARP cache, section 6.2: `lookup(out mac, ip) -> bool`.
`none` is the result `false`; `some mac` is the result `true` with `mac` stored in the out
parameter. -/
structure ARPCache where
  Lookup : IPv4Address → Option MACAddress

/-- Modelled from the spec: the Ethernet driver, section 6.1:
`get_tx_frame(ethertype, dest_mac) -> frame | null`.  `none` is a null frame; `some buf` is
a frame whose payload region currently holds the octets `buf`. -/
structure EthernetProtocol where
  GetTxFrame : Nat → MACAddress → Option Mem

/-- What `GetTxPacket` returns. -/
inductive TxPacket where
  /-- The statement `return NULL`. -/
  | null
  /-- The statement `return reply`, with the octets of the reply packet. -/
  | packet (reply : IPv4Packet)
  /-- The driver returned a null frame: the source does not test `frame`, so the header
  stores go through the payload pointer of a null frame (undefined behaviour). -/
  | nullFrame

/-- The outcome of `GetTxPacket`: the ARP lookups made, the frames requested from the
driver (ethertype and destination MAC) and the value returned. -/
structure GetTxPacketResult where
  arpLookups : List IPv4Address
  frameRequests : List (Nat × MACAddress)
  reply : TxPacket

/-- An assignment to member `m_versionAndHeaderLen`. -/
def set_m_versionAndHeaderLen (packet : IPv4Packet) (v : Nat) : IPv4Packet := write8 packet 0 v

/-- An assignment to member `m_dscpAndECN`. -/
def set_m_dscpAndECN (packet : IPv4Packet) (v : Nat) : IPv4Packet := write8 packet 1 v

/-- An assignment to member `m_flagsFragOffHigh`. -/
def set_m_flagsFragOffHigh (packet : IPv4Packet) (v : Nat) : IPv4Packet := write8 packet 6 v

/-- An assignment to member `m_fragOffLow`. -/
def set_m_fragOffLow (packet : IPv4Packet) (v : Nat) : IPv4Packet := write8 packet 7 v

/-- An assignment to member `m_ttl`. -/
def set_m_ttl (packet : IPv4Packet) (v : Nat) : IPv4Packet := write8 packet 8 v

/-- An assignment to member `m_protocol`. -/
def set_m_protocol (packet : IPv4Packet) (v : Nat) : IPv4Packet := write8 packet 9 v

/-- An assignment to member `m_sourceAddress`. -/
def set_m_sourceAddress (packet : IPv4Packet) (a : IPv4Address) : IPv4Packet :=
  write8 (write8 (write8 (write8 packet 12 a.m_octets0.val) 13 a.m_octets1.val)
    14 a.m_octets2.val) 15 a.m_octets3.val

/-- An assignment to member `m_destAddress`. -/
def set_m_destAddress (packet : IPv4Packet) (a : IPv4Address) : IPv4Packet :=
  write8 (write8 (write8 (write8 packet 16 a.m_octets0.val) 17 a.m_octets1.val)
    18 a.m_octets2.val) 19 a.m_octets3.val

/-- The tail of `GetTxPacket` (source lines 255-270): allocate the frame for `destmac` and
fill the headers.  `lookups` are the ARP lookups made before. -/
def GetTxPacket.fill (self : IPv4Protocol) (m_eth : EthernetProtocol)
    (lookups : List IPv4Address) (destmac : MACAddress) (dest : IPv4Address) (proto : Nat) :
    GetTxPacketResult :=
  match m_eth.GetTxFrame ETHERTYPE_IPV4 destmac with
  | none => ⟨lookups, [(ETHERTYPE_IPV4, destmac)], .nullFrame⟩
  | some payload =>
    let reply : IPv4Packet := payload
    let reply := set_m_versionAndHeaderLen reply 0x45
    let reply := set_m_dscpAndECN reply 0
    let reply := set_m_fragID reply 0
    let reply := set_m_flagsFragOffHigh reply 0x40
    let reply := set_m_fragOffLow reply 0
    let reply := set_m_ttl reply 0xff
    let reply := set_m_protocol reply proto
    let reply := set_m_sourceAddress reply self.m_config.m_address
    let reply := set_m_destAddress reply dest
    let reply := set_m_headerChecksum reply 0
    ⟨lookups, [(ETHERTYPE_IPV4, destmac)], .packet reply⟩

/-- The function `IPv4Protocol::GetTxPacket(dest, proto)`. -/
def GetTxPacket (self : IPv4Protocol) (m_cache : ARPCache) (m_eth : EthernetProtocol)
    (dest : IPv4Address) (proto : Nat) : GetTxPacketResult :=
  let type := GetAddressType self dest
  match type with
  | .ADDR_MULTICAST =>
    GetTxPacket.fill self m_eth [] ⟨0xff, 0xff, 0xff, 0xff, 0xff, 0xff⟩ dest proto
  | .ADDR_BROADCAST =>
    GetTxPacket.fill self m_eth [] ⟨0xff, 0xff, 0xff, 0xff, 0xff, 0xff⟩ dest proto
  | .ADDR_UNICAST_OTHER =>
    match m_cache.Lookup dest with
    | none => ⟨[dest], [], .null⟩
    | some destmac => GetTxPacket.fill self m_eth [dest] destmac dest proto
  | .ADDR_UNICAST_US => ⟨[], [], .null⟩

/-! ## TCP: sending a segment (`src/net/tcp/TCPProtocol.h`) -/

/-- The macro `TCP_MAX_UNACKED` (default value). -/
def TCP_MAX_UNACKED : Nat := 4

/-- Modelled from the spec: `sizeof(IPv4Packet)` (the struct is not under `src/`): the
20-byte header without options. -/
def sizeof_IPv4Packet : Nat := 20

/-- Modelled from the spec: `sizeof(TCPSegment)` (the struct is not under `src/`): the
standard 20-byte TCP header. -/
def sizeof_TCPSegment : Nat := 20

/-- Modelled from the spec: the constant `TCPSegment::FLAG_PSH` (not under `src/`): the
PSH bit of the data-offset+flags field. -/
def FLAG_PSH : Nat := 0x0008

/-- The class `TCPSentSegment`: the retained segment (`none` is `nullptr`) and its aging
counter. -/
structure TCPSentSegment where
  m_segment : Option Mem
  m_agingTicks : Nat

/-- The class `TCPTableEntry`. -/
structure TCPTableEntry where
  m_valid : Bool
  m_remoteIP : IPv4Address
  m_localPort : Nat
  m_remotePort : Nat
  m_remoteSeq : Nat
  m_localSeq : Nat
  m_remoteSeqSent : Nat
  m_localInitialSeq : Nat
  m_remoteInitialSeq : Nat
  m_unackedFrames : List TCPSentSegment

/-- Modelled from the spec: member `m_offsetAndFlags` of `TCPSegment` (not under `src/`):
the `uint16_t` at octets 12-13 of the segment, which starts `sizeof(IPv4Packet)` octets
into the packet buffer. -/
def m_offsetAndFlags (packet : IPv4Packet) : Nat := read16 packet (sizeof_IPv4Packet + 12)

/-- An assignment to member `m_offsetAndFlags` of the segment inside `packet`. -/
def set_m_offsetAndFlags (packet : IPv4Packet) (v : Nat) : IPv4Packet :=
  write16 packet (sizeof_IPv4Packet + 12) v

/-- The state after a send: the socket entry, the packet buffer holding the segment, and
the length handed on to the IPv4 layer (`none` when the send failed). -/
structure SendSegmentResult where
  state : TCPTableEntry
  packet : IPv4Packet
  handed : Option Nat

/-- The first free slot of the unacked ring takes the segment with a fresh aging counter;
`none` when every slot is occupied. -/
def recordUnacked (segment : Mem) : List TCPSentSegment → Option (List TCPSentSegment)
  | [] => none
  | slot :: rest =>
    match slot.m_segment with
    | none => some (⟨some segment, 0⟩ :: rest)
    | some _ => (recordUnacked segment rest).map (fun r => slot :: r)

/-- Modelled from the spec: `TCPProtocol::SendSegment` (declared in `TCPProtocol.h`, its
body is not under `src/`), section 4.5: "Record the segment and a fresh aging counter in
the next free `unacked` slot; if none is free, the send fails.  Compute the TCP checksum
using the pseudo-header prelude and hand to IPv4 TX."  The sequence numbers of the entry
are not touched; the checksum store and the hand-over are summarised by the length handed
on. -/
def SendSegment (state : TCPTableEntry) (packet : IPv4Packet) (length : Nat) :
    SendSegmentResult :=
  match recordUnacked (fun i => packet (sizeof_IPv4Packet + i)) state.m_unackedFrames with
  | none => ⟨state, packet, none⟩
  | some ring => ⟨{ state with m_unackedFrames := ring }, packet, some length⟩

/-- The function `TCPProtocol::SendTxSegment(state, segment, payloadLength)`.  The source
recovers the enclosing packet as `segment - sizeof(IPv4Packet)`; the embedding takes that
packet buffer, with the segment `sizeof(IPv4Packet)` octets into it. -/
def SendTxSegment (state : TCPTableEntry) (packet : IPv4Packet) (payloadLength : Nat) :
    SendSegmentResult :=
  let state := { state with m_localSeq := (state.m_localSeq + payloadLength) % 2 ^ 32 }
  let packet := set_m_offsetAndFlags packet (m_offsetAndFlags packet ||| FLAG_PSH)
  SendSegment state packet ((payloadLength + sizeof_TCPSegment) % 65536)

/-! ## SSH transport helpers (`src/ssh/SSHTransportServer.h`) -/

/-- The C library function `strlen` on the octets of the object `c_str` points into: the
number of octets before the first zero octet. -/
def strlen : List Byte → Nat
  | [] => 0
  | c :: rest => if c = 0 then 0 else strlen rest + 1

/-- The C library function `memcmp` from offset `i` on: the difference of the first pair
of differing octets among the next `n`, or 0. -/
def memcmpFrom (s1 s2 : Mem) : Nat → Nat → Int
  | _, 0 => 0
  | i, n + 1 =>
    if s1 i ≠ s2 i then ((s1 i).val : Int) - ((s2 i).val : Int)
    else memcmpFrom s1 s2 (i + 1) n

/-- The C library function `memcmp(s1, s2, n)`. -/
def memcmp (s1 s2 : Mem) (n : Nat) : Int := memcmpFrom s1 s2 0 n

/-- The function `SSHTransportServer::StringMatchWithLength(c_str, pack_str,
pack_str_len)`.  `c_str` is given by the octets of the object it points into (terminator
included), `pack_str` by the memory it points to. -/
def StringMatchWithLength (c_str : List Byte) (pack_str : Mem) (pack_str_len : Nat) : Bool :=
  if strlen c_str ≠ pack_str_len then
    false
  else
    memcmp (memOfList c_str) pack_str pack_str_len == 0

/-- The compiler builtin `__builtin_bswap32` on a value converted to `uint32_t`. -/
def __builtin_bswap32 (x : Nat) : Nat :=
  (x % 256) * 16777216 + (x / 256 % 256) * 65536 + (x / 65536 % 256) * 256
    + (x / 16777216) % 256

/-- A `uint32_t` store at byte offset `off` on the little-endian host (the value is
narrowed to 32 bits). -/
def write32 (mem : Mem) (off : Nat) (v : Nat) : Mem :=
  write8 (write8 (write8 (write8 mem off (v % 256)) (off + 1) (v / 256 % 256))
    (off + 2) (v / 65536 % 256)) (off + 3) (v / 16777216 % 256)

/-- The function `SSHTransportServer::WriteUint32(ptr, value)`; `ptr` is the memory the
pointer addresses. -/
def WriteUint32 (ptr : Mem) (value : Nat) : Mem :=
  write32 ptr 0 (__builtin_bswap32 value)

/-! ## The specification's reading of the checksum -/

/-- One's-complement addition with end-around carry, in the spec's words:
`x (+) w = ((x + w) mod 65536) + ((x + w) div 65536)`. -/
def onesAdd (x w : Nat) : Nat := (x + w) % 65536 + (x + w) / 65536

/-- The 16-bit big-endian words of the first `len` octets of `data`, in the spec's words:
`data[2i] * 256 + data[2i+1]`, then `data[len-1] * 256` when `len` is odd. -/
def specWords (data : Mem) (len : Nat) : List Nat :=
  (List.range (len / 2)).map (fun i => (data (2 * i)).val * 256 + (data (2 * i + 1)).val)
    ++ (if len % 2 = 1 then [(data (len - 1)).val * 256] else [])

/-- The checksum as the spec describes it: start from `initial` and add each word in
order. -/
def specChecksum (data : Mem) (len : Nat) (initial : Nat) : Nat :=
  (specWords data len).foldl onesAdd initial

/-- The local array `pseudoheader` of `PseudoHeaderChecksum` (source lines 86-102). -/
def pseudoheader (packet : IPv4Packet) (length : Nat) : List Byte :=
  [ (m_sourceAddress packet).m_octets0,
    (m_sourceAddress packet).m_octets1,
    (m_sourceAddress packet).m_octets2,
    (m_sourceAddress packet).m_octets3,
    (m_destAddress packet).m_octets0,
    (m_destAddress packet).m_octets1,
    (m_destAddress packet).m_octets2,
    (m_destAddress packet).m_octets3,
    0x0,
    packet 9,
    ⟨(length >>> 8) % 256, Nat.mod_lt _ (by decide)⟩,
    ⟨(length &&& 0xff) % 256, Nat.mod_lt _ (by decide)⟩ ]

/-- The final fold of the spec's concatenation property:
`fold(x) = (x >> 16) + (x & 0xFFFF)`. -/
def fold (x : Nat) : Nat := (x >>> 16) + (x &&& 0xFFFF)

/-- The weight of the octet at offset `i` inside its 16-bit big-endian word: 256 for the
high (even) octet, 1 for the low (odd) octet. -/
def octetWeight (i : Nat) : Nat := if i % 2 = 0 then 256 else 1

/-! ## Named conditions of the receive filter -/

/-- The fragment test of `OnRxPacket` (source lines 157-162) on the byte-swapped packet:
neither `return` is taken, i.e. `(m_flagsFragOffHigh & 0xbf) != 0` is false and
`m_fragOffLow != 0` is false. -/
def passesFragmentCheck (packet : IPv4Packet) : Prop :=
  ¬ ((m_flagsFragOffHigh packet &&& 0xbf) ≠ 0) ∧ ¬ (m_fragOffLow packet ≠ 0)

instance (packet : IPv4Packet) : Decidable (passesFragmentCheck packet) :=
  inferInstanceAs
    (Decidable (¬ ((m_flagsFragOffHigh packet &&& 0xbf) ≠ 0) ∧ ¬ (m_fragOffLow packet ≠ 0)))

/-- The 13-bit fragment offset of the IPv4 header: the low five bits of the flags octet
followed by the low offset octet. -/
def fragmentOffset (packet : IPv4Packet) : Nat :=
  (m_flagsFragOffHigh packet &&& 0x1f) * 256 + m_fragOffLow packet

/-! ## A concrete host and concrete packets -/

/-- A host at 192.168.1.1 with directed broadcast 192.168.1.255, both handlers
registered. -/
def exampleStack : IPv4Protocol :=
  { m_config :=
      { m_address := ⟨192, 168, 1, 1⟩, m_broadcast := ⟨192, 168, 1, 255⟩,
        m_gateway := ⟨192, 168, 1, 254⟩ },
    m_icmpv4 := true, m_tcp := true }

/-- An ICMP packet from 192.168.1.2 to the host, total length 28, DF set, valid header
checksum. -/
def examplePing : IPv4Packet :=
  memOfList [0x45, 0x00, 0x00, 0x1c, 0x00, 0x00, 0x40, 0x00, 0x40, 0x01, 0xb7, 0x8d,
    0xc0, 0xa8, 0x01, 0x02, 0xc0, 0xa8, 0x01, 0x01]

/-- A TCP packet from 192.168.1.2 to the host, total length 40, valid header checksum. -/
def exampleTcp : IPv4Packet :=
  memOfList [0x45, 0x00, 0x00, 0x28, 0x00, 0x00, 0x40, 0x00, 0x40, 0x06, 0xb7, 0x7c,
    0xc0, 0xa8, 0x01, 0x02, 0xc0, 0xa8, 0x01, 0x01]

/-- The ICMP packet with its checksum octets cleared, so the header checksum is wrong. -/
def exampleBadChecksum : IPv4Packet :=
  memOfList [0x45, 0x00, 0x00, 0x1c, 0x00, 0x00, 0x40, 0x00, 0x40, 0x01, 0x00, 0x00,
    0xc0, 0xa8, 0x01, 0x02, 0xc0, 0xa8, 0x01, 0x01]

/-- A packet announcing a 24-byte header (version+IHL `0x46`); its checksum over those 24
octets is valid. -/
def exampleOptions : IPv4Packet :=
  memOfList [0x46, 0x00, 0x00, 0x1c, 0x00, 0x00, 0x40, 0x00, 0x40, 0x01, 0xb6, 0x8d,
    0xc0, 0xa8, 0x01, 0x02, 0xc0, 0xa8, 0x01, 0x01]

/-- An ICMP packet whose total length field is 19, valid header checksum. -/
def exampleShort : IPv4Packet :=
  memOfList [0x45, 0x00, 0x00, 0x13, 0x00, 0x00, 0x40, 0x00, 0x40, 0x01, 0xb7, 0x96,
    0xc0, 0xa8, 0x01, 0x02, 0xc0, 0xa8, 0x01, 0x01]

/-- An ICMP packet with More-Fragments set, valid header checksum. -/
def exampleFragment : IPv4Packet :=
  memOfList [0x45, 0x00, 0x00, 0x1c, 0x00, 0x00, 0x20, 0x00, 0x40, 0x01, 0xd7, 0x8d,
    0xc0, 0xa8, 0x01, 0x02, 0xc0, 0xa8, 0x01, 0x01]

/-- An ICMP packet addressed to 10.0.0.9, valid header checksum. -/
def exampleForeign : IPv4Packet :=
  memOfList [0x45, 0x00, 0x00, 0x1c, 0x00, 0x00, 0x40, 0x00, 0x40, 0x01, 0x6f, 0x2e,
    0xc0, 0xa8, 0x01, 0x02, 0x0a, 0x00, 0x00, 0x09]

/-- An ICMP packet addressed to the multicast group 224.0.0.1, valid header checksum. -/
def exampleMulticast : IPv4Packet :=
  memOfList [0x45, 0x00, 0x00, 0x1c, 0x00, 0x00, 0x40, 0x00, 0x40, 0x01, 0x99, 0x35,
    0xc0, 0xa8, 0x01, 0x02, 0xe0, 0x00, 0x00, 0x01]

/-- A transmit header before `SendTxPacket` finalises it: checksum octets zero. -/
def exampleTxHeader : Mem :=
  memOfList [0x45, 0x00, 0x00, 0x54, 0x00, 0x00, 0x40, 0x00, 0xff, 0x01, 0x00, 0x00,
    0xc0, 0xa8, 0x01, 0x01, 0xc0, 0xa8, 0x01, 0x02]

/-- An ARP cache that knows 192.168.1.2 only. -/
def exampleCache : ARPCache :=
  { Lookup := fun ip =>
      if ip = ⟨192, 168, 1, 2⟩ then some ⟨0x02, 0x00, 0x00, 0x00, 0x00, 0x02⟩ else none }

/-- A driver that always has a TX frame, whose payload region is all zero. -/
def exampleEth : EthernetProtocol :=
  { GetTxFrame := fun _ _ => some (memOfList []) }

/-- An established socket whose local sequence number sits at its initial value
`0xFFFFFFF0`, with an empty unacked ring. -/
def exampleSocket : TCPTableEntry :=
  { m_valid := true, m_remoteIP := ⟨192, 168, 1, 2⟩, m_localPort := 22, m_remotePort := 50000,
    m_remoteSeq := 0x10000001, m_localSeq := 0xFFFFFFF0, m_remoteSeqSent := 0x10000001,
    m_localInitialSeq := 0xFFFFFFF0, m_remoteInitialSeq := 0x10000000,
    m_unackedFrames := List.replicate TCP_MAX_UNACKED ⟨none, 0⟩ }

/-- A driver that has no TX frame available. -/
def exampleEthBusy : EthernetProtocol :=
  { GetTxFrame := fun _ _ => none }

/-- The C string "ssh" with its terminator. -/
def exampleCStr : List Byte := [0x73, 0x73, 0x68, 0x00]

/-- A host at 192.168.1.2 with directed broadcast 192.168.1.255, both handlers
registered. -/
def examplePeer : IPv4Protocol :=
  { m_config :=
      { m_address := ⟨192, 168, 1, 2⟩, m_broadcast := ⟨192, 168, 1, 255⟩,
        m_gateway := ⟨192, 168, 1, 254⟩ },
    m_icmpv4 := true, m_tcp := true }

/-- The canonical one's-complement representative of a plain sum: `0` for `0`, otherwise
the value in `1 .. 65535` congruent to `n` modulo `65535`. -/
def ocNorm (n : Nat) : Nat := if n = 0 then 0 else (n - 1) % 65535 + 1

/-! ## Arithmetic of the fold step -/

theorem onesAdd_le (c w : Nat) (hc : c ≤ 65535) (hw : w ≤ 65535) : onesAdd c w ≤ 65535 := by
  unfold onesAdd
  omega

theorem fold_step (c w : Nat) (hc : c ≤ 65535) (hw : w ≤ 65535) :
    ((((c + w) % 2 ^ 32) >>> 16) + (((c + w) % 2 ^ 32) &&& 0xffff)) % 2 ^ 32 = onesAdd c w := by
  have h1 : (c + w) % 2 ^ 32 = c + w := Nat.mod_eq_of_lt (by norm_num; omega)
  have h2 : (c + w) &&& 0xffff = (c + w) % 65536 :=
    Nat.and_pow_two_sub_one_eq_mod (c + w) 16
  rw [h1, h2, Nat.shiftRight_eq_div_pow]
  unfold onesAdd
  norm_num
  omega

theorem bswap16_read16 (data : Mem) (p : Nat) :
    __builtin_bswap16 (read16 data p) = (data p).val * 256 + (data (p + 1)).val := by
  unfold __builtin_bswap16 read16
  omega

theorem bswap16_byte (b : Byte) : __builtin_bswap16 b.val = b.val * 256 := by
  unfold __builtin_bswap16
  omega

theorem specWords_zero (f : Mem) : specWords f 0 = [] := by
  simp [specWords]

theorem specWords_one (f : Mem) : specWords f 1 = [(f 0).val * 256] := by
  simp [specWords]

theorem specWords_add_two (f : Mem) (n : Nat) :
    specWords f (n + 2)
      = ((f 0).val * 256 + (f 1).val) :: specWords (fun i => f (2 + i)) n := by
  unfold specWords
  have h1 : (n + 2) / 2 = n / 2 + 1 := by omega
  have h2 : (n + 2) % 2 = n % 2 := by omega
  rw [h1, h2, List.range_succ_eq_map]
  have hm : List.map ((fun i => (f (2 * i)).val * 256 + (f (2 * i + 1)).val) ∘ Nat.succ)
        (List.range (n / 2))
      = List.map (fun i => (f (2 + 2 * i)).val * 256 + (f (2 + (2 * i + 1))).val)
        (List.range (n / 2)) := by
    apply List.map_congr_left
    intro i _
    have e1 : 2 * (i + 1) = 2 + 2 * i := by omega
    have e2 : 2 + 2 * i + 1 = 2 + (2 * i + 1) := by omega
    simp only [Function.comp, Nat.succ_eq_add_one, e1, e2]
  have ht : (if n % 2 = 1 then [(f (n + 2 - 1)).val * 256] else [])
      = (if n % 2 = 1 then [(f (2 + (n - 1))).val * 256] else []) := by
    by_cases h : n % 2 = 1
    · have e : n + 2 - 1 = 2 + (n - 1) := by omega
      rw [e]
    · rw [if_neg h, if_neg h]
  simp only [List.map_cons, List.map_map, List.cons_append, Nat.mul_zero, Nat.zero_add, hm, ht]

/-! ## The loop computes the spec's fold -/

theorem checksumLoop_eq (data : Mem) (len : Nat) : ∀ p c, c ≤ 65535 →
    checksumLoop data p len c
      = (specWords (fun i => data (p + i)) len).foldl onesAdd c := by
  induction len using Nat.strong_induction_on with
  | _ len ih =>
    intro p c hc
    match len, ih with
    | 0, _ =>
      simp [checksumLoop, specWords_zero]
    | 1, _ =>
      have hb : (data p).val * 256 ≤ 65535 := by omega
      simp only [checksumLoop, specWords_one, bswap16_byte, List.foldl_cons, List.foldl_nil,
        Nat.add_zero]
      rw [fold_step c _ hc hb]
      simp
    | n + 2, ih =>
      have hw : (data p).val * 256 + (data (p + 1)).val ≤ 65535 := by omega
      have hshift : (fun i => (fun j => data (p + j)) (2 + i)) = (fun i => data (p + 2 + i)) := by
        funext i
        simp only [Nat.add_assoc]
      rw [checksumLoop, specWords_add_two, List.foldl_cons, hshift]
      simp only [bswap16_read16, Nat.add_zero]
      rw [fold_step c _ hc hw]
      exact ih n (by omega) (p + 2) _ (onesAdd_le c _ hc hw)

theorem InternetChecksum_eq_foldl (data : Mem) (len initial : Nat) (hi : initial ≤ 65535) :
    checksumLoop data 0 len initial = (specWords data len).foldl onesAdd initial := by
  have h := checksumLoop_eq data len 0 initial hi
  simpa using h

/-! ## Closed form of the fold -/

theorem ocNorm_le (n : Nat) : ocNorm n ≤ 65535 := by
  unfold ocNorm
  split <;> omega

theorem ocNorm_of_le (c : Nat) (hc : c ≤ 65535) : ocNorm c = c := by
  unfold ocNorm
  split <;> omega

theorem onesAdd_ocNorm (a w : Nat) (hw : w ≤ 65535) :
    onesAdd (ocNorm a) w = ocNorm (a + w) := by
  unfold onesAdd ocNorm
  split <;> split <;> omega

theorem foldl_onesAdd_ocNorm (ws : List Nat) :
    (∀ w ∈ ws, w ≤ 65535) → ∀ a, ws.foldl onesAdd (ocNorm a) = ocNorm (a + ws.sum) := by
  induction ws with
  | nil => intro _ a; simp
  | cons w ws ih =>
    intro hws a
    have hw : w ≤ 65535 := hws w (List.mem_cons_self _ _)
    have hrest : ∀ x ∈ ws, x ≤ 65535 := fun x hx => hws x (List.mem_cons_of_mem _ hx)
    rw [List.foldl_cons, onesAdd_ocNorm a w hw, ih hrest, List.sum_cons, Nat.add_assoc]

theorem specWords_le (data : Mem) (len : Nat) : ∀ w ∈ specWords data len, w ≤ 65535 := by
  intro w hw
  unfold specWords at hw
  rcases List.mem_append.mp hw with h | h
  · obtain ⟨i, _, rfl⟩ := List.mem_map.mp h
    omega
  · by_cases hodd : len % 2 = 1
    · rw [if_pos hodd] at h
      rw [List.mem_singleton.mp h]
      omega
    · rw [if_neg hodd] at h
      cases h

theorem specChecksum_closed (data : Mem) (len initial : Nat) (hi : initial ≤ 65535) :
    specChecksum data len initial = ocNorm (initial + (specWords data len).sum) := by
  unfold specChecksum
  have h := foldl_onesAdd_ocNorm (specWords data len) (specWords_le data len) initial
  rw [ocNorm_of_le initial hi] at h
  exact h

theorem InternetChecksum_eq_spec (data : Mem) (len initial : Nat) (hi : initial ≤ 65535) :
    InternetChecksum data len initial = specChecksum data len initial := by
  unfold InternetChecksum
  rw [InternetChecksum_eq_foldl data len initial hi]
  have hle : specChecksum data len initial ≤ 65535 := by
    rw [specChecksum_closed data len initial hi]
    exact ocNorm_le _
  unfold specChecksum at hle ⊢
  omega

theorem InternetChecksum_closed (data : Mem) (len initial : Nat) (hi : initial ≤ 65535) :
    InternetChecksum data len initial = ocNorm (initial + (specWords data len).sum) := by
  rw [InternetChecksum_eq_spec data len initial hi, specChecksum_closed data len initial hi]

theorem ocNorm_add_complement (n : Nat) : ocNorm (n + (65535 - ocNorm n)) = 65535 := by
  unfold ocNorm
  split <;> split <;> omega

/-! ## The 20-byte header -/

theorem specWords_twenty (h : Mem) :
    specWords h 20
      = [(h 0).val * 256 + (h 1).val, (h 2).val * 256 + (h 3).val,
         (h 4).val * 256 + (h 5).val, (h 6).val * 256 + (h 7).val,
         (h 8).val * 256 + (h 9).val, (h 10).val * 256 + (h 11).val,
         (h 12).val * 256 + (h 13).val, (h 14).val * 256 + (h 15).val,
         (h 16).val * 256 + (h 17).val, (h 18).val * 256 + (h 19).val] := rfl

theorem write16_at (mem : Mem) (off v : Nat) :
    ((write16 mem off v) off).val = v % 256 := by
  simp [write16, write8]

theorem write16_at_succ (mem : Mem) (off v : Nat) :
    ((write16 mem off v) (off + 1)).val = v / 256 % 256 := by
  simp [write16, write8]

theorem write16_other (mem : Mem) (off v i : Nat) (h1 : i ≠ off) (h2 : i ≠ off + 1) :
    (write16 mem off v) i = mem i := by
  simp [write16, write8, h1, h2]

theorem stored_complement_word (s : Nat) (hs : s ≤ 65535) :
    (not16 (__builtin_bswap16 s)) % 256 * 256 + (not16 (__builtin_bswap16 s)) / 256 % 256
      = 65535 - s := by
  obtain ⟨hi, lo, hlo, hhi, rfl⟩ : ∃ hi lo, lo < 256 ∧ hi < 256 ∧ s = hi * 256 + lo :=
    ⟨s / 256, s % 256, by omega, by omega, by omega⟩
  have e1 : (hi * 256 + lo) % 256 = lo := by omega
  have e2 : (hi * 256 + lo) / 256 % 256 = hi := by omega
  unfold not16 __builtin_bswap16
  rw [e1, e2]
  have e3 : (lo * 256 + hi) % 65536 = lo * 256 + hi := by omega
  have e4 : 65535 - (lo * 256 + hi) = (255 - lo) * 256 + (255 - hi) := by omega
  rw [e3, e4]
  have e5 : ((255 - lo) * 256 + (255 - hi)) % 256 = 255 - hi := by omega
  have e6 : ((255 - lo) * 256 + (255 - hi)) / 256 % 256 = 255 - lo := by omega
  rw [e5, e6]
  omega

/-! ## Byte swapping and the header fields -/

theorem ByteSwap_other (packet : IPv4Packet) (i : Nat) (h2 : i ≠ 2) (h3 : i ≠ 3) (h4 : i ≠ 4)
    (h5 : i ≠ 5) (h10 : i ≠ 10) (h11 : i ≠ 11) : ByteSwap packet i = packet i := by
  simp [ByteSwap, set_m_totalLength, set_m_fragID, set_m_headerChecksum, write16, write8,
    h2, h3, h4, h5, h10, h11]

theorem m_versionAndHeaderLen_ByteSwap (packet : IPv4Packet) :
    m_versionAndHeaderLen (ByteSwap packet) = (packet 0).val := by
  unfold m_versionAndHeaderLen
  rw [ByteSwap_other packet 0 (by decide) (by decide) (by decide) (by decide) (by decide)
    (by decide)]

theorem m_totalLength_ByteSwap (packet : IPv4Packet) :
    m_totalLength (ByteSwap packet) = (packet 2).val * 256 + (packet 3).val := by
  unfold m_totalLength ByteSwap set_m_headerChecksum set_m_fragID set_m_totalLength
  unfold read16
  simp only [m_totalLength]
  rw [write16_other _ 10 _ 2 (by decide) (by decide), write16_other _ 4 _ 2 (by decide) (by decide),
    write16_other _ 10 _ (2 + 1) (by decide) (by decide),
    write16_other _ 4 _ (2 + 1) (by decide) (by decide),
    write16_at, write16_at_succ, bswap16_read16]
  simp only [Nat.reduceAdd]
  omega

theorem m_destAddress_ByteSwap (packet : IPv4Packet) :
    m_destAddress (ByteSwap packet) = m_destAddress packet := by
  unfold m_destAddress
  rw [ByteSwap_other packet 16 (by decide) (by decide) (by decide) (by decide) (by decide)
      (by decide),
    ByteSwap_other packet 17 (by decide) (by decide) (by decide) (by decide) (by decide)
      (by decide),
    ByteSwap_other packet 18 (by decide) (by decide) (by decide) (by decide) (by decide)
      (by decide),
    ByteSwap_other packet 19 (by decide) (by decide) (by decide) (by decide) (by decide)
      (by decide)]

theorem m_sourceAddress_ByteSwap (packet : IPv4Packet) :
    m_sourceAddress (ByteSwap packet) = m_sourceAddress packet := by
  unfold m_sourceAddress
  rw [ByteSwap_other packet 12 (by decide) (by decide) (by decide) (by decide) (by decide)
      (by decide),
    ByteSwap_other packet 13 (by decide) (by decide) (by decide) (by decide) (by decide)
      (by decide),
    ByteSwap_other packet 14 (by decide) (by decide) (by decide) (by decide) (by decide)
      (by decide),
    ByteSwap_other packet 15 (by decide) (by decide) (by decide) (by decide) (by decide)
      (by decide)]

set_option maxRecDepth 100000 in
theorem byte_and_f0 : ∀ b : Byte, (b.val &&& 0xf0 = 0xe0) ↔ (224 ≤ b.val ∧ b.val ≤ 239) := by
  decide

set_option maxRecDepth 100000 in
theorem byte_top_nibble : ∀ b : Byte, (b.val &&& 0xf0 = 0xe0) ↔ b.val >>> 4 = 0b1110 := by
  decide

set_option maxRecDepth 100000 in
theorem byte_and_bf : ∀ b : Byte,
    (b.val &&& 0xbf = 0) ↔ (b.val &&& 0x80 = 0 ∧ b.val &&& 0x20 = 0 ∧ b.val &&& 0x1f = 0) := by
  decide

set_option maxRecDepth 100000 in
theorem byte_xor_df : ∀ b : Byte, (b.val ^^^ 0x40) &&& 0xbf = b.val &&& 0xbf := by
  decide

set_option maxRecDepth 100000 in
theorem byte_xor_df_lt : ∀ b : Byte, b.val ^^^ 0x40 < 256 := by
  decide

set_option maxRecDepth 100000 in
theorem byte_header_length : ∀ b : Byte, b.val = 0x45 → (b.val &&& 0xf) * 4 = 20 := by
  decide

theorem passesFragmentCheck_iff (p : IPv4Packet) :
    passesFragmentCheck p ↔ (m_flagsFragOffHigh p &&& 0xbf = 0 ∧ m_fragOffLow p = 0) := by
  unfold passesFragmentCheck
  simp only [ne_eq, not_not]

theorem GetAddressType_unicast_us_iff (self : IPv4Protocol) (addr : IPv4Address) :
    GetAddressType self addr = AddressType.ADDR_UNICAST_US ↔ addr = self.m_config.m_address := by
  unfold GetAddressType
  split_ifs <;> simp_all

/-- The value `OnRxPacket` hands to the upper layers once a packet has passed the five
header tests and the address filter. -/
theorem OnRxPacket_dispatch_accepted (self : IPv4Protocol) (packet : IPv4Packet)
    (ethernetPayloadLength : Nat)
    (hc : InternetChecksum packet (HeaderLength packet) 0 = 0xffff)
    (hv : m_versionAndHeaderLen (ByteSwap packet) = 0x45)
    (hl1 : 20 ≤ m_totalLength (ByteSwap packet))
    (hl2 : m_totalLength (ByteSwap packet) ≤ ethernetPayloadLength)
    (hf : passesFragmentCheck (ByteSwap packet))
    (ht : GetAddressType self (m_destAddress (ByteSwap packet)) ≠ AddressType.ADDR_UNICAST_OTHER) :
    (OnRxPacket self packet ethernetPayloadLength).dispatch =
      if m_protocol (ByteSwap packet) = IP_PROTO_ICMP then
        if self.m_icmpv4 = true ∧
            (GetAddressType self (m_destAddress (ByteSwap packet)) = AddressType.ADDR_UNICAST_US
              ∨ GetAddressType self (m_destAddress (ByteSwap packet))
                = AddressType.ADDR_BROADCAST) then
          RxDispatch.icmpv4 (Payload (ByteSwap packet)) (PayloadLength (ByteSwap packet))
            (m_sourceAddress (ByteSwap packet))
        else RxDispatch.none
      else if m_protocol (ByteSwap packet) = IP_PROTO_TCP then
        if self.m_tcp = true ∧
            GetAddressType self (m_destAddress (ByteSwap packet))
              = AddressType.ADDR_UNICAST_US then
          RxDispatch.tcp (Payload (ByteSwap packet)) (PayloadLength (ByteSwap packet))
            (m_sourceAddress (ByteSwap packet))
            (PseudoHeaderChecksum (ByteSwap packet) (PayloadLength (ByteSwap packet)))
        else RxDispatch.none
      else if m_protocol (ByteSwap packet) = IP_PROTO_UDP then
        if GetAddressType self (m_destAddress (ByteSwap packet))
            = AddressType.ADDR_UNICAST_US then RxDispatch.udpTodo
        else RxDispatch.none
      else RxDispatch.none := by
  have hc' : ¬ (0xffff ≠ InternetChecksum packet (HeaderLength packet) 0) := by
    rw [hc]; exact fun h => h rfl
  have hv' : ¬ (m_versionAndHeaderLen (ByteSwap packet) ≠ 0x45) := fun h => h hv
  have hl' : ¬ (m_totalLength (ByteSwap packet) < 20
      ∨ m_totalLength (ByteSwap packet) > ethernetPayloadLength) := by omega
  obtain ⟨hf1, hf2⟩ := hf
  unfold OnRxPacket
  rw [if_neg hc']
  simp only [if_neg hv', if_neg hl', if_neg hf1, if_neg hf2, if_neg ht]
  split_ifs <;> rfl

/-- A packet failing any of the header tests or the address filter is dropped. -/
theorem OnRxPacket_dispatch_rejected (self : IPv4Protocol) (packet : IPv4Packet)
    (ethernetPayloadLength : Nat)
    (h : ¬ (InternetChecksum packet (HeaderLength packet) 0 = 0xffff
      ∧ m_versionAndHeaderLen (ByteSwap packet) = 0x45
      ∧ 20 ≤ m_totalLength (ByteSwap packet)
      ∧ m_totalLength (ByteSwap packet) ≤ ethernetPayloadLength
      ∧ passesFragmentCheck (ByteSwap packet)
      ∧ GetAddressType self (m_destAddress (ByteSwap packet))
          ≠ AddressType.ADDR_UNICAST_OTHER)) :
    (OnRxPacket self packet ethernetPayloadLength).dispatch = RxDispatch.none := by
  unfold OnRxPacket
  by_cases hc : 0xffff ≠ InternetChecksum packet (HeaderLength packet) 0
  · rw [if_pos hc]
  rw [if_neg hc]
  by_cases hv : m_versionAndHeaderLen (ByteSwap packet) ≠ 0x45
  · simp only [if_pos hv]
  by_cases hl : m_totalLength (ByteSwap packet) < 20
      ∨ m_totalLength (ByteSwap packet) > ethernetPayloadLength
  · simp only [if_neg hv, if_pos hl]
  by_cases hf1 : (m_flagsFragOffHigh (ByteSwap packet) &&& 0xbf) ≠ 0
  · simp only [if_neg hv, if_neg hl, if_pos hf1]
  by_cases hf2 : m_fragOffLow (ByteSwap packet) ≠ 0
  · simp only [if_neg hv, if_neg hl, if_neg hf1, if_pos hf2]
  by_cases ht : GetAddressType self (m_destAddress (ByteSwap packet))
      = AddressType.ADDR_UNICAST_OTHER
  · simp only [if_neg hv, if_neg hl, if_neg hf1, if_neg hf2, if_pos ht]
  exfalso
  apply h
  refine ⟨?_, ?_, ?_, ?_, ⟨hf1, hf2⟩, ht⟩
  · by_contra hne
    exact hc (fun e => hne e.symm)
  · by_contra hne
    exact hv hne
  · omega
  · omega

theorem m_totalLength_lt (p : IPv4Packet) : m_totalLength p < 65536 := by
  unfold m_totalLength read16
  omega

theorem HeaderLength_of_version (p : IPv4Packet) (hv : m_versionAndHeaderLen p = 0x45) :
    HeaderLength p = 20 := by
  unfold HeaderLength
  unfold m_versionAndHeaderLen at hv ⊢
  exact byte_header_length (p 0) hv

theorem PayloadLength_of_version (p : IPv4Packet) (hv : m_versionAndHeaderLen p = 0x45)
    (hl : 20 ≤ m_totalLength p) : PayloadLength p = m_totalLength p - 20 := by
  have hlt := m_totalLength_lt p
  unfold PayloadLength
  rw [HeaderLength_of_version p hv]
  omega

theorem specWords_sum_set_checksum (header : Mem) (v : Nat)
    (h10 : header 10 = 0) (h11 : header 11 = 0) :
    (specWords (set_m_headerChecksum header v) 20).sum
      = (specWords header 20).sum + (v % 256 * 256 + v / 256 % 256) := by
  rw [specWords_twenty, specWords_twenty, h10, h11]
  unfold set_m_headerChecksum
  rw [write16_other _ 10 _ 0 (by decide) (by decide), write16_other _ 10 _ 1 (by decide) (by decide),
    write16_other _ 10 _ 2 (by decide) (by decide), write16_other _ 10 _ 3 (by decide) (by decide),
    write16_other _ 10 _ 4 (by decide) (by decide), write16_other _ 10 _ 5 (by decide) (by decide),
    write16_other _ 10 _ 6 (by decide) (by decide), write16_other _ 10 _ 7 (by decide) (by decide),
    write16_other _ 10 _ 8 (by decide) (by decide), write16_other _ 10 _ 9 (by decide) (by decide),
    write16_other _ 10 _ 12 (by decide) (by decide), write16_other _ 10 _ 13 (by decide) (by decide),
    write16_other _ 10 _ 14 (by decide) (by decide), write16_other _ 10 _ 15 (by decide) (by decide),
    write16_other _ 10 _ 16 (by decide) (by decide), write16_other _ 10 _ 17 (by decide) (by decide),
    write16_other _ 10 _ 18 (by decide) (by decide), write16_other _ 10 _ 19 (by decide) (by decide),
    write16_at, write16_at_succ _ 10]
  simp only [List.sum_cons, List.sum_nil, Nat.add_zero, Nat.zero_add, Fin.val_zero,
    Nat.zero_mul]
  omega

theorem read16_eq_zero (mem : Mem) (off : Nat) (h : read16 mem off = 0) :
    mem off = 0 ∧ mem (off + 1) = 0 := by
  unfold read16 at h
  constructor <;> apply Fin.ext <;> simp only [Fin.val_zero] <;> omega

theorem ByteSwap_at_checksum (p : IPv4Packet) :
    (ByteSwap p 10).val = (p 11).val ∧ (ByteSwap p 11).val = (p 10).val := by
  unfold ByteSwap set_m_headerChecksum set_m_fragID set_m_totalLength m_headerChecksum
  have h := write16_at_succ
    (write16 (write16 p 2 (__builtin_bswap16 (m_totalLength p))) 4
      (__builtin_bswap16 (m_fragID (write16 p 2 (__builtin_bswap16 (m_totalLength p))))))
    10
    (__builtin_bswap16 (read16 (write16 (write16 p 2 (__builtin_bswap16 (m_totalLength p))) 4
      (__builtin_bswap16 (m_fragID (write16 p 2 (__builtin_bswap16 (m_totalLength p)))))) 10))
  simp only [Nat.reduceAdd] at h
  rw [write16_at, h, bswap16_read16]
  simp only [Nat.reduceAdd]
  rw [write16_other _ 4 _ 10 (by decide) (by decide), write16_other _ 2 _ 10 (by decide) (by decide),
    write16_other _ 4 _ 11 (by decide) (by decide), write16_other _ 2 _ 11 (by decide) (by decide)]
  constructor <;> omega

theorem set_m_totalLength_other (p : IPv4Packet) (v i : Nat) (h2 : i ≠ 2) (h3 : i ≠ 3) :
    set_m_totalLength p v i = p i := by
  unfold set_m_totalLength
  exact write16_other p 2 v i h2 h3

/-- The header `SendTxPacket` hands to the driver verifies: when the packet's checksum
field was zero on entry (as `GetTxPacket` leaves it), the checksum over the 20 header
octets of the transmitted packet is `0xFFFF`. -/
theorem SendTxPacket_checksum_verifies (packet : IPv4Packet) (upperLayerLength : Nat)
    (h : m_headerChecksum packet = 0) :
    InternetChecksum (SendTxPacket packet upperLayerLength).packet 20 0 = 0xffff := by
  obtain ⟨z10, z11⟩ := read16_eq_zero packet 10 h
  simp only [Nat.reduceAdd] at z11
  have hb := ByteSwap_at_checksum
    (set_m_totalLength packet ((HeaderLength packet + upperLayerLength) % 65536))
  rw [set_m_totalLength_other _ _ 10 (by decide) (by decide),
    set_m_totalLength_other _ _ 11 (by decide) (by decide), z10, z11] at hb
  unfold SendTxPacket
  simp only []
  generalize ByteSwap (set_m_totalLength packet ((HeaderLength packet + upperLayerLength) % 65536))
    = header at hb ⊢
  have hclosed := InternetChecksum_closed header 20 0 (by omega)
  have hS : InternetChecksum header 20 0 ≤ 65535 := by
    rw [hclosed]
    exact ocNorm_le _
  rw [InternetChecksum_closed _ 20 0 (by omega),
    specWords_sum_set_checksum header _ (Fin.ext hb.1) (Fin.ext hb.2),
    stored_complement_word _ hS, hclosed]
  simp only [Nat.zero_add]
  exact ocNorm_add_complement _

/-! ## Outbound allocation -/

theorem fill_reply_ne_null (self : IPv4Protocol) (m_eth : EthernetProtocol)
    (lookups : List IPv4Address) (destmac : MACAddress) (dest : IPv4Address) (proto : Nat) :
    (GetTxPacket.fill self m_eth lookups destmac dest proto).reply ≠ TxPacket.null := by
  unfold GetTxPacket.fill
  cases m_eth.GetTxFrame ETHERTYPE_IPV4 destmac <;> simp

theorem fill_frameRequests (self : IPv4Protocol) (m_eth : EthernetProtocol)
    (lookups : List IPv4Address) (destmac : MACAddress) (dest : IPv4Address) (proto : Nat) :
    (GetTxPacket.fill self m_eth lookups destmac dest proto).frameRequests
      = [(ETHERTYPE_IPV4, destmac)] := by
  unfold GetTxPacket.fill
  cases m_eth.GetTxFrame ETHERTYPE_IPV4 destmac <;> rfl

theorem fill_arpLookups (self : IPv4Protocol) (m_eth : EthernetProtocol)
    (lookups : List IPv4Address) (destmac : MACAddress) (dest : IPv4Address) (proto : Nat) :
    (GetTxPacket.fill self m_eth lookups destmac dest proto).arpLookups = lookups := by
  unfold GetTxPacket.fill
  cases m_eth.GetTxFrame ETHERTYPE_IPV4 destmac <;> rfl

theorem write8_val (mem : Mem) (off v i : Nat) :
    ((write8 mem off v) i).val = if i = off then v % 256 else (mem i).val := by
  unfold write8
  split <;> rfl

theorem write8_byte_self (mem : Mem) (off : Nat) (b : Byte) : write8 mem off b.val off = b := by
  apply Fin.ext
  rw [write8_val, if_pos rfl]
  exact Nat.mod_eq_of_lt b.isLt

theorem write8_other (mem : Mem) (off v i : Nat) (h : i ≠ off) : write8 mem off v i = mem i := by
  unfold write8
  rw [if_neg h]

/-- The header fields of the packet built by the tail of `GetTxPacket`. -/
theorem fill_fields (self : IPv4Protocol) (m_eth : EthernetProtocol)
    (lookups : List IPv4Address) (destmac : MACAddress) (dest : IPv4Address) (proto : Nat)
    (hproto : proto < 256) (p : IPv4Packet)
    (h : (GetTxPacket.fill self m_eth lookups destmac dest proto).reply = TxPacket.packet p) :
    m_versionAndHeaderLen p = 0x45 ∧ m_dscpAndECN p = 0 ∧ m_fragID p = 0
      ∧ m_flagsFragOffHigh p = 0x40 ∧ m_fragOffLow p = 0 ∧ m_ttl p = 255
      ∧ m_protocol p = proto ∧ m_sourceAddress p = self.m_config.m_address
      ∧ m_destAddress p = dest ∧ m_headerChecksum p = 0 := by
  unfold GetTxPacket.fill at h
  cases hf : m_eth.GetTxFrame ETHERTYPE_IPV4 destmac with
  | none =>
    rw [hf] at h
    cases h
  | some payload =>
    rw [hf] at h
    simp only [TxPacket.packet.injEq] at h
    subst h
    refine ⟨?_, ?_, ?_, ?_, ?_, ?_, ?_, ?_, ?_, ?_⟩
    · simp [m_versionAndHeaderLen, set_m_headerChecksum, set_m_destAddress,
        set_m_sourceAddress, set_m_protocol, set_m_ttl, set_m_fragOffLow,
        set_m_flagsFragOffHigh, set_m_fragID, set_m_dscpAndECN, set_m_versionAndHeaderLen,
        write16, write8_val]
    · simp [m_dscpAndECN, set_m_headerChecksum, set_m_destAddress,
        set_m_sourceAddress, set_m_protocol, set_m_ttl, set_m_fragOffLow,
        set_m_flagsFragOffHigh, set_m_fragID, set_m_dscpAndECN, set_m_versionAndHeaderLen,
        write16, write8_val]
    · simp [m_fragID, read16, set_m_headerChecksum, set_m_destAddress,
        set_m_sourceAddress, set_m_protocol, set_m_ttl, set_m_fragOffLow,
        set_m_flagsFragOffHigh, set_m_fragID, set_m_dscpAndECN, set_m_versionAndHeaderLen,
        write16, write8_val]
    · simp [m_flagsFragOffHigh, set_m_headerChecksum, set_m_destAddress,
        set_m_sourceAddress, set_m_protocol, set_m_ttl, set_m_fragOffLow,
        set_m_flagsFragOffHigh, set_m_fragID, set_m_dscpAndECN, set_m_versionAndHeaderLen,
        write16, write8_val]
    · simp [m_fragOffLow, set_m_headerChecksum, set_m_destAddress,
        set_m_sourceAddress, set_m_protocol, set_m_ttl, set_m_fragOffLow,
        set_m_flagsFragOffHigh, set_m_fragID, set_m_dscpAndECN, set_m_versionAndHeaderLen,
        write16, write8_val]
    · simp [m_ttl, set_m_headerChecksum, set_m_destAddress,
        set_m_sourceAddress, set_m_protocol, set_m_ttl, set_m_fragOffLow,
        set_m_flagsFragOffHigh, set_m_fragID, set_m_dscpAndECN, set_m_versionAndHeaderLen,
        write16, write8_val]
    · simp [m_protocol, set_m_headerChecksum, set_m_destAddress,
        set_m_sourceAddress, set_m_protocol, set_m_ttl, set_m_fragOffLow,
        set_m_flagsFragOffHigh, set_m_fragID, set_m_dscpAndECN, set_m_versionAndHeaderLen,
        write16, write8_val]
      exact hproto
    · unfold m_sourceAddress set_m_headerChecksum set_m_destAddress set_m_sourceAddress
      rw [write16_other _ 10 _ 12 (by decide) (by decide),
        write16_other _ 10 _ 13 (by decide) (by decide),
        write16_other _ 10 _ 14 (by decide) (by decide),
        write16_other _ 10 _ 15 (by decide) (by decide)]
      rw [write8_other _ 19 _ 12 (by decide), write8_other _ 18 _ 12 (by decide),
        write8_other _ 17 _ 12 (by decide), write8_other _ 16 _ 12 (by decide),
        write8_other _ 19 _ 13 (by decide), write8_other _ 18 _ 13 (by decide),
        write8_other _ 17 _ 13 (by decide), write8_other _ 16 _ 13 (by decide),
        write8_other _ 19 _ 14 (by decide), write8_other _ 18 _ 14 (by decide),
        write8_other _ 17 _ 14 (by decide), write8_other _ 16 _ 14 (by decide),
        write8_other _ 19 _ 15 (by decide), write8_other _ 18 _ 15 (by decide),
        write8_other _ 17 _ 15 (by decide), write8_other _ 16 _ 15 (by decide),
        write8_other _ 15 _ 12 (by decide), write8_other _ 14 _ 12 (by decide),
        write8_other _ 13 _ 12 (by decide), write8_other _ 15 _ 13 (by decide),
        write8_other _ 14 _ 13 (by decide), write8_other _ 15 _ 14 (by decide),
        write8_byte_self, write8_byte_self, write8_byte_self, write8_byte_self]
    · unfold m_destAddress set_m_headerChecksum set_m_destAddress
      rw [write16_other _ 10 _ 16 (by decide) (by decide),
        write16_other _ 10 _ 17 (by decide) (by decide),
        write16_other _ 10 _ 18 (by decide) (by decide),
        write16_other _ 10 _ 19 (by decide) (by decide)]
      rw [write8_other _ 19 _ 16 (by decide), write8_other _ 18 _ 16 (by decide),
        write8_other _ 17 _ 16 (by decide), write8_other _ 19 _ 17 (by decide),
        write8_other _ 18 _ 17 (by decide), write8_other _ 19 _ 18 (by decide),
        write8_byte_self, write8_byte_self, write8_byte_self, write8_byte_self]
    · simp [m_headerChecksum, read16, set_m_headerChecksum, write16, write8_val]

/-! ## Transmit length and the TCP sequence number -/

theorem read16_write16 (mem : Mem) (off v : Nat) :
    read16 (write16 mem off v) off = v % 65536 := by
  unfold read16
  rw [write16_at, write16_at_succ]
  omega

theorem ByteSwap_at_totalLength (p : IPv4Packet) :
    (ByteSwap p 2).val = (p 3).val ∧ (ByteSwap p 3).val = (p 2).val := by
  have h := m_totalLength_ByteSwap p
  unfold m_totalLength read16 at h
  simp only [Nat.reduceAdd] at h
  have h2 : (ByteSwap p 2).val < 256 := (ByteSwap p 2).isLt
  have h3 : (ByteSwap p 3).val < 256 := (ByteSwap p 3).isLt
  omega

theorem fill_version (self : IPv4Protocol) (m_eth : EthernetProtocol)
    (lookups : List IPv4Address) (destmac : MACAddress) (dest : IPv4Address) (proto : Nat)
    (p : IPv4Packet)
    (h : (GetTxPacket.fill self m_eth lookups destmac dest proto).reply = TxPacket.packet p) :
    m_versionAndHeaderLen p = 0x45 := by
  unfold GetTxPacket.fill at h
  cases hf : m_eth.GetTxFrame ETHERTYPE_IPV4 destmac with
  | none =>
    rw [hf] at h
    cases h
  | some payload =>
    rw [hf] at h
    simp only [TxPacket.packet.injEq] at h
    subst h
    simp [m_versionAndHeaderLen, set_m_headerChecksum, set_m_destAddress,
      set_m_sourceAddress, set_m_protocol, set_m_ttl, set_m_fragOffLow,
      set_m_flagsFragOffHigh, set_m_fragID, set_m_dscpAndECN, set_m_versionAndHeaderLen,
      write16, write8_val]

theorem GetTxPacket_version (self : IPv4Protocol) (m_cache : ARPCache)
    (m_eth : EthernetProtocol) (dest : IPv4Address) (proto : Nat) (p : IPv4Packet)
    (h : (GetTxPacket self m_cache m_eth dest proto).reply = TxPacket.packet p) :
    m_versionAndHeaderLen p = 0x45 := by
  unfold GetTxPacket at h
  cases hty : GetAddressType self dest with
  | ADDR_MULTICAST =>
    rw [hty] at h
    exact fill_version _ _ _ _ _ _ _ h
  | ADDR_BROADCAST =>
    rw [hty] at h
    exact fill_version _ _ _ _ _ _ _ h
  | ADDR_UNICAST_OTHER =>
    rw [hty] at h
    cases hl : m_cache.Lookup dest with
    | none =>
      simp only [hl] at h
      cases h
    | some destmac =>
      simp only [hl] at h
      exact fill_version _ _ _ _ _ _ _ h
  | ADDR_UNICAST_US =>
    rw [hty] at h
    cases h

/-- The lengths `SendTxPacket` produces for a packet with a 20-byte header: the frame
payload length and the total-length field on the wire are both `(20 + n) mod 65536`. -/
theorem SendTxPacket_lengths (p : IPv4Packet) (n : Nat) (hv : m_versionAndHeaderLen p = 0x45) :
    (SendTxPacket p n).payloadLength = (20 + n) % 65536
      ∧ ((SendTxPacket p n).packet 2).val * 256 + ((SendTxPacket p n).packet 3).val
          = (20 + n) % 65536 := by
  have hh := HeaderLength_of_version p hv
  unfold SendTxPacket
  simp only [hh]
  have hr : m_totalLength (set_m_totalLength p ((20 + n) % 65536)) = (20 + n) % 65536 := by
    unfold m_totalLength set_m_totalLength
    rw [read16_write16]
    omega
  refine ⟨hr, ?_⟩
  unfold set_m_headerChecksum
  rw [write16_other _ 10 _ 2 (by decide) (by decide), write16_other _ 10 _ 3 (by decide) (by decide)]
  obtain ⟨h2, h3⟩ := ByteSwap_at_totalLength (set_m_totalLength p ((20 + n) % 65536))
  rw [h2, h3]
  unfold m_totalLength read16 at hr
  simp only [Nat.reduceAdd] at hr
  omega

theorem SendSegment_localSeq (state : TCPTableEntry) (packet : IPv4Packet) (length : Nat) :
    (SendSegment state packet length).state.m_localSeq = state.m_localSeq := by
  unfold SendSegment
  cases recordUnacked (fun i => packet (sizeof_IPv4Packet + i)) state.m_unackedFrames <;> rfl

/-! ## The word sum, octet by octet -/

theorem specWords_sum_succ (h : Mem) (n : Nat) :
    (specWords h (n + 1)).sum = (specWords h n).sum + octetWeight n * (h n).val := by
  unfold octetWeight
  rcases Nat.even_or_odd' n with ⟨k, rfl | rfl⟩
  · have e1 : (2 * k + 1) / 2 = k := by omega
    have e2 : (2 * k + 1) % 2 = 1 := by omega
    have e3 : 2 * k / 2 = k := by omega
    have e4 : 2 * k % 2 = 0 := by omega
    unfold specWords
    rw [e1, e2, e3, e4]
    simp only [if_true, if_pos, List.sum_append, List.sum_cons, List.sum_nil,
      Nat.add_sub_cancel, Nat.zero_ne_one, if_false, Nat.add_zero]
    omega
  · have e1 : (2 * k + 1 + 1) / 2 = k + 1 := by omega
    have e2 : (2 * k + 1 + 1) % 2 = 0 := by omega
    have e3 : (2 * k + 1) / 2 = k := by omega
    have e4 : (2 * k + 1) % 2 = 1 := by omega
    unfold specWords
    rw [e1, e2, e3, e4]
    simp only [List.range_succ, List.map_append, List.map_cons, List.map_nil, if_true,
      List.sum_append, List.sum_cons, List.sum_nil, Nat.add_sub_cancel, Nat.zero_ne_one,
      if_false, Nat.add_zero, Nat.one_ne_zero]
    omega

theorem specWords_sum_congr (h h' : Mem) (n : Nat) (hsame : ∀ i, i < n → h i = h' i) :
    (specWords h n).sum = (specWords h' n).sum := by
  induction n with
  | zero => rw [specWords_zero, specWords_zero]
  | succ n ih =>
    rw [specWords_sum_succ, specWords_sum_succ, hsame n (Nat.lt_succ_self n),
      ih (fun i hi => hsame i (Nat.lt_succ_of_lt hi))]

theorem octetWeight_add_even (k n : Nat) (hk : k % 2 = 0) :
    octetWeight (k + n) = octetWeight n := by
  unfold octetWeight
  have e : (k + n) % 2 = n % 2 := by omega
  rw [e]

theorem specWords_sum_add (m mb : Mem) (k n : Nat) (hk : k % 2 = 0)
    (hsame : ∀ j, j < n → m (k + j) = mb j) :
    (specWords m (k + n)).sum = (specWords m k).sum + (specWords mb n).sum := by
  induction n with
  | zero => rw [specWords_zero]; simp
  | succ n ih =>
    rw [← Nat.add_assoc, specWords_sum_succ, specWords_sum_succ, octetWeight_add_even k n hk,
      hsame n (Nat.lt_succ_self n), ih (fun j hj => hsame j (Nat.lt_succ_of_lt hj))]
    omega

theorem specWords_sum_write8 (h : Mem) (len i v : Nat) (hi : i < len) :
    (specWords (write8 h i v) len).sum + octetWeight i * (h i).val
      = (specWords h len).sum + octetWeight i * (v % 256) := by
  induction len with
  | zero => omega
  | succ n ih =>
    rw [specWords_sum_succ, specWords_sum_succ]
    by_cases hin : i = n
    · subst hin
      have hc : (specWords (write8 h i v) i).sum = (specWords h i).sum :=
        specWords_sum_congr _ _ _ (fun j hj => write8_other h i v j (by omega))
      rw [hc, write8_val, if_pos rfl]
      omega
    · have hlt : i < n := by omega
      have ih' := ih hlt
      rw [write8_other h i v n (fun e => hin e.symm)]
      omega

theorem ocNorm_add_ocNorm (a b : Nat) : ocNorm (a + ocNorm b) = ocNorm (a + b) := by
  unfold ocNorm
  split <;> split <;> split <;> omega

theorem fold_eq_onesAdd (x y : Nat) : fold (x + y) = onesAdd x y := by
  unfold fold onesAdd
  have h2 : (x + y) &&& 0xFFFF = (x + y) % 65536 := Nat.and_pow_two_sub_one_eq_mod (x + y) 16
  rw [h2, Nat.shiftRight_eq_div_pow]
  norm_num
  omega

theorem ocNorm_eq_ffff_iff (n : Nat) : ocNorm n = 65535 ↔ (n ≠ 0 ∧ n % 65535 = 0) := by
  unfold ocNorm
  split <;> omega

theorem memOfList_append_left (a b : List Byte) (i : Nat) (hi : i < a.length) :
    memOfList (a ++ b) i = memOfList a i := by
  unfold memOfList
  exact List.getD_append a b 0 i hi

theorem memOfList_append_right (a b : List Byte) (j : Nat) :
    memOfList (a ++ b) (a.length + j) = memOfList b j := by
  unfold memOfList
  rw [List.getD_append_right a b 0 (a.length + j) (by omega)]
  simp

/-! ## Strings -/

theorem strlen_eq_takeWhile (c : List Byte) :
    strlen c = (c.takeWhile (fun b => b != 0)).length := by
  induction c with
  | nil => rfl
  | cons b rest ih =>
    unfold strlen
    by_cases hb : b = 0
    · subst hb
      simp
    · rw [if_neg hb, ih, List.takeWhile_cons_of_pos (by simpa using hb), List.length_cons]

theorem memOfList_takeWhile (c : List Byte) :
    ∀ i, i < strlen c → memOfList (c.takeWhile (fun b => b != 0)) i = memOfList c i := by
  induction c with
  | nil => intro i hi; simp [strlen] at hi
  | cons b rest ih =>
    intro i hi
    unfold strlen at hi
    by_cases hb : b = 0
    · rw [if_pos hb] at hi
      omega
    · rw [if_neg hb] at hi
      rw [List.takeWhile_cons_of_pos (by simpa using hb)]
      cases i with
      | zero => rfl
      | succ j =>
        have := ih j (by omega)
        simpa [memOfList] using this

theorem memcmpFrom_eq_zero_iff (s1 s2 : Mem) (n : Nat) :
    ∀ i, memcmpFrom s1 s2 i n = 0 ↔ ∀ j, j < n → s1 (i + j) = s2 (i + j) := by
  induction n with
  | zero =>
    intro i
    simp [memcmpFrom]
  | succ n ih =>
    intro i
    unfold memcmpFrom
    by_cases hne : s1 i ≠ s2 i
    · rw [if_pos hne]
      constructor
      · intro h
        exfalso
        apply hne
        apply Fin.ext
        omega
      · intro h
        exact absurd (h 0 (Nat.succ_pos n)) hne
    · rw [if_neg hne, ih (i + 1)]
      have heq : s1 i = s2 i := by
        by_contra h
        exact hne h
      constructor
      · intro h j hj
        cases j with
        | zero => exact heq
        | succ k =>
          have := h k (by omega)
          have e : i + (k + 1) = i + 1 + k := by omega
          rw [e]
          exact this
      · intro h j hj
        have := h (j + 1) (by omega)
        have e : i + (j + 1) = i + 1 + j := by omega
        rw [← e]
        exact this

theorem memcmp_eq_zero_iff (s1 s2 : Mem) (n : Nat) :
    memcmp s1 s2 n = 0 ↔ ∀ j, j < n → s1 j = s2 j := by
  unfold memcmp
  rw [memcmpFrom_eq_zero_iff]
  simp only [Nat.zero_add]

theorem list_eq_map_range_iff (l : List Byte) (f : Mem) (n : Nat) :
    l = (List.range n).map f ↔ (l.length = n ∧ ∀ i, i < n → memOfList l i = f i) := by
  constructor
  · intro h
    subst h
    refine ⟨by simp, ?_⟩
    intro i hi
    unfold memOfList
    rw [List.getD_eq_getElem _ _ (by simpa using hi)]
    simp
  · rintro ⟨hlen, hall⟩
    apply List.ext_getElem
    · simpa using hlen
    · intro i h1 h2
      have hi : i < n := by simpa using h2
      have := hall i hi
      unfold memOfList at this
      rw [List.getD_eq_getElem _ _ h1] at this
      simpa using this

theorem StringMatchWithLength_true_iff (c_str : List Byte) (pack_str : Mem)
    (pack_str_len : Nat) :
    StringMatchWithLength c_str pack_str pack_str_len = true ↔
      (strlen c_str = pack_str_len
        ∧ ∀ i, i < pack_str_len → memOfList c_str i = pack_str i) := by
  unfold StringMatchWithLength
  by_cases hl : strlen c_str ≠ pack_str_len
  · rw [if_pos hl]
    constructor
    · intro h
      cases h
    · rintro ⟨h, _⟩
      exact absurd h hl
  · rw [if_neg hl]
    have hl' : strlen c_str = pack_str_len := by
      by_contra h
      exact hl h
    rw [beq_iff_eq, memcmp_eq_zero_iff]
    exact ⟨fun h => ⟨hl', h⟩, fun h => h.2⟩

theorem memOfList_ne_zero_of_lt_strlen (c : List Byte) :
    ∀ i, i < strlen c → memOfList c i ≠ 0 := by
  induction c with
  | nil => intro i hi; simp [strlen] at hi
  | cons b rest ih =>
    intro i hi
    unfold strlen at hi
    by_cases hb : b = 0
    · rw [if_pos hb] at hi
      omega
    · rw [if_neg hb] at hi
      cases i with
      | zero => exact hb
      | succ j =>
        have := ih j (by omega)
        simpa [memOfList] using this

/-! ## Seeding the checksum -/

theorem PseudoHeaderChecksum_eq (packet : IPv4Packet) (length : Nat) :
    PseudoHeaderChecksum packet length
      = InternetChecksum (memOfList (pseudoheader packet length))
          (pseudoheader packet length).length 0 := rfl

theorem InternetChecksum_le (data : Mem) (len initial : Nat) (hi : initial ≤ 65535) :
    InternetChecksum data len initial ≤ 65535 := by
  rw [InternetChecksum_closed data len initial hi]
  exact ocNorm_le _

theorem InternetChecksum_seed_append (a b : List Byte) (heven : a.length % 2 = 0) :
    InternetChecksum (memOfList b) b.length (InternetChecksum (memOfList a) a.length 0)
      = InternetChecksum (memOfList (a ++ b)) (a.length + b.length) 0 := by
  have hsum : (specWords (memOfList (a ++ b)) (a.length + b.length)).sum
      = (specWords (memOfList a) a.length).sum + (specWords (memOfList b) b.length).sum := by
    rw [specWords_sum_add (memOfList (a ++ b)) (memOfList b) a.length b.length heven
      (fun j _ => memOfList_append_right a b j)]
    rw [specWords_sum_congr (memOfList (a ++ b)) (memOfList a) a.length
      (fun i hi => memOfList_append_left a b i hi)]
  rw [InternetChecksum_closed (memOfList b) _ _ (InternetChecksum_le _ _ 0 (by omega)),
    InternetChecksum_closed (memOfList a) _ 0 (by omega),
    InternetChecksum_closed (memOfList (a ++ b)) _ 0 (by omega), hsum]
  simp only [Nat.zero_add]
  rw [Nat.add_comm (ocNorm _) _, ocNorm_add_ocNorm, Nat.add_comm]

/-! ## What a delivered packet looks like -/

theorem OnRxPacket_accepted_of_dispatch (self : IPv4Protocol) (packet : IPv4Packet)
    (ethernetPayloadLength : Nat)
    (h : (OnRxPacket self packet ethernetPayloadLength).dispatch ≠ RxDispatch.none) :
    InternetChecksum packet (HeaderLength packet) 0 = 0xffff
      ∧ m_versionAndHeaderLen (ByteSwap packet) = 0x45
      ∧ 20 ≤ m_totalLength (ByteSwap packet)
      ∧ m_totalLength (ByteSwap packet) ≤ ethernetPayloadLength
      ∧ passesFragmentCheck (ByteSwap packet)
      ∧ GetAddressType self (m_destAddress (ByteSwap packet))
          ≠ AddressType.ADDR_UNICAST_OTHER := by
  by_contra hacc
  exact h (OnRxPacket_dispatch_rejected self packet ethernetPayloadLength hacc)

theorem OnRxPacket_delivered_args (self : IPv4Protocol) (packet : IPv4Packet)
    (ethernetPayloadLength : Nat) :
    (∀ payload length source,
        (OnRxPacket self packet ethernetPayloadLength).dispatch
          = RxDispatch.icmpv4 payload length source →
        payload = Payload (ByteSwap packet) ∧ length = PayloadLength (ByteSwap packet))
    ∧ (∀ payload length source pseudo,
        (OnRxPacket self packet ethernetPayloadLength).dispatch
          = RxDispatch.tcp payload length source pseudo →
        payload = Payload (ByteSwap packet) ∧ length = PayloadLength (ByteSwap packet)) := by
  constructor
  · intro payload length source h
    have hne : (OnRxPacket self packet ethernetPayloadLength).dispatch ≠ RxDispatch.none := by
      rw [h]
      exact fun e => RxDispatch.noConfusion e
    obtain ⟨hc, hv, hl1, hl2, hf, ht⟩ :=
      OnRxPacket_accepted_of_dispatch self packet ethernetPayloadLength hne
    rw [OnRxPacket_dispatch_accepted self packet ethernetPayloadLength hc hv hl1 hl2 hf ht] at h
    split_ifs at h
    injection h with h1 h2 h3
    exact ⟨h1.symm, h2.symm⟩
  · intro payload length source pseudo h
    have hne : (OnRxPacket self packet ethernetPayloadLength).dispatch ≠ RxDispatch.none := by
      rw [h]
      exact fun e => RxDispatch.noConfusion e
    obtain ⟨hc, hv, hl1, hl2, hf, ht⟩ :=
      OnRxPacket_accepted_of_dispatch self packet ethernetPayloadLength hne
    rw [OnRxPacket_dispatch_accepted self packet ethernetPayloadLength hc hv hl1 hl2 hf ht] at h
    split_ifs at h
    injection h with h1 h2 h3 h4
    exact ⟨h1.symm, h2.symm⟩

/-! ## Accumulator bounds and the big-endian store -/

theorem ocNorm_mod (n : Nat) : ocNorm n % 65535 = n % 65535 := by
  unfold ocNorm
  split <;> omega

theorem ocNorm_eq_zero_iff (n : Nat) : ocNorm n = 0 ↔ n = 0 := by
  unfold ocNorm
  split <;> omega

theorem checksumLoop_le (data : Mem) (k initial : Nat) (hi : initial ≤ 65535) :
    checksumLoop data 0 k initial ≤ 65535 := by
  rw [InternetChecksum_eq_foldl data k initial hi]
  have h := specChecksum_closed data k initial hi
  unfold specChecksum at h
  rw [h]
  exact ocNorm_le _

theorem bswap32_bytes (a b c d : Nat) (ha : a < 256) (hb : b < 256) (hc : c < 256)
    (hd : d < 256) :
    __builtin_bswap32 (a * 16777216 + b * 65536 + c * 256 + d)
      = d * 16777216 + c * 65536 + b * 256 + a := by
  unfold __builtin_bswap32
  have e1 : (a * 16777216 + b * 65536 + c * 256 + d) % 256 = d := by omega
  have e2 : (a * 16777216 + b * 65536 + c * 256 + d) / 256 % 256 = c := by omega
  have e3 : (a * 16777216 + b * 65536 + c * 256 + d) / 65536 % 256 = b := by omega
  have e4 : (a * 16777216 + b * 65536 + c * 256 + d) / 16777216 % 256 = a := by omega
  rw [e1, e2, e3, e4]

theorem WriteUint32_bytes (ptr : Mem) (a b c d : Nat) (ha : a < 256) (hb : b < 256)
    (hc : c < 256) (hd : d < 256) :
    ((WriteUint32 ptr (a * 16777216 + b * 65536 + c * 256 + d)) 0).val = a
      ∧ ((WriteUint32 ptr (a * 16777216 + b * 65536 + c * 256 + d)) 1).val = b
      ∧ ((WriteUint32 ptr (a * 16777216 + b * 65536 + c * 256 + d)) 2).val = c
      ∧ ((WriteUint32 ptr (a * 16777216 + b * 65536 + c * 256 + d)) 3).val = d := by
  unfold WriteUint32 write32
  rw [bswap32_bytes a b c d ha hb hc hd]
  have e1 : (d * 16777216 + c * 65536 + b * 256 + a) % 256 = a := by omega
  have e2 : (d * 16777216 + c * 65536 + b * 256 + a) / 256 % 256 = b := by omega
  have e3 : (d * 16777216 + c * 65536 + b * 256 + a) / 65536 % 256 = c := by omega
  have e4 : (d * 16777216 + c * 65536 + b * 256 + a) / 16777216 % 256 = d := by omega
  rw [e1, e2, e3, e4]
  simp only [write8_val, Nat.zero_add]
  refine ⟨?_, ?_, ?_, ?_⟩ <;> simp <;> omega

/-! ## From the transmit path to the receive path -/

theorem GetTxPacket_reply_fields (self : IPv4Protocol) (m_cache : ARPCache)
    (m_eth : EthernetProtocol) (dest : IPv4Address) (proto : Nat) (hproto : proto < 256)
    (p : IPv4Packet)
    (h : (GetTxPacket self m_cache m_eth dest proto).reply = TxPacket.packet p) :
    m_versionAndHeaderLen p = 0x45 ∧ m_dscpAndECN p = 0 ∧ m_fragID p = 0
      ∧ m_flagsFragOffHigh p = 0x40 ∧ m_fragOffLow p = 0 ∧ m_ttl p = 255
      ∧ m_protocol p = proto ∧ m_sourceAddress p = self.m_config.m_address
      ∧ m_destAddress p = dest ∧ m_headerChecksum p = 0 := by
  unfold GetTxPacket at h
  cases hty : GetAddressType self dest with
  | ADDR_MULTICAST =>
    rw [hty] at h
    exact fill_fields _ _ _ _ _ _ hproto _ h
  | ADDR_BROADCAST =>
    rw [hty] at h
    exact fill_fields _ _ _ _ _ _ hproto _ h
  | ADDR_UNICAST_OTHER =>
    rw [hty] at h
    cases hl : m_cache.Lookup dest with
    | none =>
      simp only [hl] at h
      cases h
    | some destmac =>
      simp only [hl] at h
      exact fill_fields _ _ _ _ _ _ hproto _ h
  | ADDR_UNICAST_US =>
    rw [hty] at h
    cases h

theorem SendTxPacket_packet_other (p : IPv4Packet) (n i : Nat) (h2 : i ≠ 2) (h3 : i ≠ 3)
    (h4 : i ≠ 4) (h5 : i ≠ 5) (h10 : i ≠ 10) (h11 : i ≠ 11) :
    (SendTxPacket p n).packet i = p i := by
  unfold SendTxPacket
  simp only []
  unfold set_m_headerChecksum
  rw [write16_other _ 10 _ i h10 h11, ByteSwap_other _ i h2 h3 h4 h5 h10 h11,
    set_m_totalLength_other _ _ i h2 h3]

theorem m_fragID_ByteSwap (packet : IPv4Packet) :
    m_fragID (ByteSwap packet) = (packet 4).val * 256 + (packet 5).val := by
  unfold m_fragID ByteSwap set_m_headerChecksum set_m_fragID set_m_totalLength
  unfold read16
  simp only [m_fragID]
  rw [write16_other _ 10 _ 4 (by decide) (by decide),
    write16_other _ 10 _ (4 + 1) (by decide) (by decide),
    write16_at, write16_at_succ, bswap16_read16,
    write16_other _ 2 _ 4 (by decide) (by decide),
    write16_other _ 2 _ (4 + 1) (by decide) (by decide)]
  simp only [Nat.reduceAdd]
  omega

theorem ByteSwap_at_fragID (p : IPv4Packet) :
    (ByteSwap p 4).val = (p 5).val ∧ (ByteSwap p 5).val = (p 4).val := by
  have h := m_fragID_ByteSwap p
  unfold m_fragID read16 at h
  simp only [Nat.reduceAdd] at h
  have h4 : (ByteSwap p 4).val < 256 := (ByteSwap p 4).isLt
  have h5 : (ByteSwap p 5).val < 256 := (ByteSwap p 5).isLt
  omega

theorem SendTxPacket_fragID_octets (p : IPv4Packet) (n : Nat) (h : m_fragID p = 0) :
    ((SendTxPacket p n).packet 4).val = 0 ∧ ((SendTxPacket p n).packet 5).val = 0 := by
  obtain ⟨z4, z5⟩ := read16_eq_zero p 4 h
  simp only [Nat.reduceAdd] at z5
  unfold SendTxPacket
  simp only []
  unfold set_m_headerChecksum
  rw [write16_other _ 10 _ 4 (by decide) (by decide),
    write16_other _ 10 _ 5 (by decide) (by decide)]
  obtain ⟨h4, h5⟩ := ByteSwap_at_fragID
    (set_m_totalLength p ((HeaderLength p + n) % 65536))
  rw [h4, h5, set_m_totalLength_other _ _ 4 (by decide) (by decide),
    set_m_totalLength_other _ _ 5 (by decide) (by decide), z4, z5]
  exact ⟨rfl, rfl⟩

theorem OnRxPacket_packet_of_checksum (self : IPv4Protocol) (packet : IPv4Packet)
    (ethernetPayloadLength : Nat)
    (hc : InternetChecksum packet (HeaderLength packet) 0 = 0xffff) :
    (OnRxPacket self packet ethernetPayloadLength).packet = ByteSwap packet := by
  have hc' : ¬ (0xffff ≠ InternetChecksum packet (HeaderLength packet) 0) := by
    rw [hc]; exact fun h => h rfl
  unfold OnRxPacket
  rw [if_neg hc']
  simp only []
  split_ifs <;> rfl

/-! ## Claims -/

/-- C1: for every byte sequence `data` of length `len <= 65535` and every 16-bit
`initial`, `InternetChecksum(data, len, initial)` is the value obtained by starting from
`initial` and adding in order each big-endian word `data[2i] * 256 + data[2i+1]` and, for
odd `len`, the final word `data[len-1] * 256`, one step being
`x (+) w = (x + w) mod 65536 + (x + w) div 65536`; nothing is complemented. -/
theorem InternetChecksum_refines_spec (data : Mem) (len initial : Nat)
    (hlen : len ≤ 65535) (hinitial : initial < 65536) :
    InternetChecksum data len initial
      = (specWords data len).foldl (fun x w => (x + w) % 65536 + (x + w) / 65536) initial := by
  have _ := hlen
  exact InternetChecksum_eq_spec data len initial (by omega)

/-- Witness of C1 on the three octets `45 00 1c` with initial value `0x1234`. -/
theorem InternetChecksum_refines_spec_witness :
    3 ≤ 65535 ∧ 0x1234 < 65536 ∧
      InternetChecksum (memOfList [0x45, 0x00, 0x1c]) 3 0x1234
        = (specWords (memOfList [0x45, 0x00, 0x1c]) 3).foldl
            (fun x w => (x + w) % 65536 + (x + w) / 65536) 0x1234 :=
  ⟨by decide, by decide,
    InternetChecksum_refines_spec (memOfList [0x45, 0x00, 0x1c]) 3 0x1234 (by decide) (by decide)⟩

/-- C2: for every 20-byte IPv4 header in network byte order whose checksum field (octets
10-11) is zero, storing the complement of `InternetChecksum(header, 20)` into
`m_headerChecksum` the way `SendTxPacket` does (`~__builtin_bswap16(...)`, i.e. big-endian
on the wire) gives a header whose `InternetChecksum` over its 20 octets is exactly
`0xFFFF`, the value `OnRxPacket` requires. -/
theorem header_checksum_verifies (header : Mem) (h10 : header 10 = 0) (h11 : header 11 = 0) :
    InternetChecksum
      (set_m_headerChecksum header
        (not16 (__builtin_bswap16 (InternetChecksum header 20 0)))) 20 0 = 0xffff := by
  -- S, the sum over the header with a zero checksum field, is a 16-bit value
  have hclosed := InternetChecksum_closed header 20 0 (by omega)
  have hS : InternetChecksum header 20 0 ≤ 65535 := by
    rw [hclosed]
    exact ocNorm_le _
  -- the stored field contributes the word 0xFFFF - S to the new sum
  rw [InternetChecksum_closed _ 20 0 (by omega),
    specWords_sum_set_checksum header _ h10 h11, stored_complement_word _ hS]
  -- and S + (0xFFFF - S) normalises to 0xFFFF
  rw [hclosed]
  simp only [Nat.zero_add]
  exact ocNorm_add_complement _

/-- Witness of C2 on an ICMP transmit header from 192.168.1.1 to 192.168.1.2. -/
theorem header_checksum_verifies_witness :
    exampleTxHeader 10 = 0 ∧ exampleTxHeader 11 = 0 ∧
      InternetChecksum
        (set_m_headerChecksum exampleTxHeader
          (not16 (__builtin_bswap16 (InternetChecksum exampleTxHeader 20 0)))) 20 0 = 0xffff :=
  ⟨by decide, by decide, header_checksum_verifies exampleTxHeader (by decide) (by decide)⟩

/-- C3: a received packet whose `InternetChecksum` over its first `HeaderLength()` octets
(four times the low nibble of octet 0), taken on the network-order octets before any byte
swapping, differs from `0xFFFF` causes no upper-layer call: neither the ICMP handler nor
the TCP handler is invoked. -/
theorem OnRxPacket_drops_bad_checksum (self : IPv4Protocol) (packet : IPv4Packet)
    (ethernetPayloadLength : Nat)
    (h : InternetChecksum packet (((packet 0).val &&& 0xf) * 4) 0 ≠ 0xffff) :
    (OnRxPacket self packet ethernetPayloadLength).dispatch = RxDispatch.none := by
  have h' : 0xffff ≠ InternetChecksum packet (HeaderLength packet) 0 := fun e => h e.symm
  unfold OnRxPacket
  rw [if_pos h']

/-- Witness of C3: the ICMP packet with zeroed checksum octets. -/
theorem OnRxPacket_drops_bad_checksum_witness :
    InternetChecksum exampleBadChecksum (((exampleBadChecksum 0).val &&& 0xf) * 4) 0 ≠ 0xffff ∧
      (OnRxPacket exampleStack exampleBadChecksum 28).dispatch = RxDispatch.none :=
  ⟨by decide, OnRxPacket_drops_bad_checksum exampleStack exampleBadChecksum 28 (by decide)⟩

/-- C4: a received packet whose version+IHL octet is not `0x45` causes no upper-layer
call, whatever the other header fields and `ethernetPayloadLength` are. -/
theorem OnRxPacket_drops_bad_version (self : IPv4Protocol) (packet : IPv4Packet)
    (ethernetPayloadLength : Nat) (h : (packet 0).val ≠ 0x45) :
    (OnRxPacket self packet ethernetPayloadLength).dispatch = RxDispatch.none := by
  have hv : m_versionAndHeaderLen (ByteSwap packet) ≠ 0x45 := by
    rw [m_versionAndHeaderLen_ByteSwap]
    exact h
  unfold OnRxPacket
  by_cases hc : 0xffff ≠ InternetChecksum packet (HeaderLength packet) 0
  · rw [if_pos hc]
  · rw [if_neg hc]
    simp only [if_pos hv]

/-- Witness of C4: a packet with version+IHL `0x46` whose 24-octet header checksum is
valid. -/
theorem OnRxPacket_drops_bad_version_witness :
    (exampleOptions 0).val ≠ 0x45 ∧
      InternetChecksum exampleOptions (HeaderLength exampleOptions) 0 = 0xffff ∧
      (OnRxPacket exampleStack exampleOptions 28).dispatch = RxDispatch.none :=
  ⟨by decide, by decide, OnRxPacket_drops_bad_version exampleStack exampleOptions 28 (by decide)⟩

/-- C5: for every received packet and every `ethernetPayloadLength`, if the host-order
total length (the field `m_totalLength` after `ByteSwap`, i.e. octet 2 times 256 plus
octet 3) is below 20 or above `ethernetPayloadLength`, no upper-layer call is made. -/
theorem OnRxPacket_drops_bad_length (self : IPv4Protocol) (packet : IPv4Packet)
    (ethernetPayloadLength : Nat)
    (h : (packet 2).val * 256 + (packet 3).val < 20
      ∨ (packet 2).val * 256 + (packet 3).val > ethernetPayloadLength) :
    m_totalLength (ByteSwap packet) = (packet 2).val * 256 + (packet 3).val ∧
      (OnRxPacket self packet ethernetPayloadLength).dispatch = RxDispatch.none := by
  refine ⟨m_totalLength_ByteSwap packet, ?_⟩
  have hl : m_totalLength (ByteSwap packet) < 20
      ∨ m_totalLength (ByteSwap packet) > ethernetPayloadLength := by
    rw [m_totalLength_ByteSwap]
    exact h
  unfold OnRxPacket
  by_cases hc : 0xffff ≠ InternetChecksum packet (HeaderLength packet) 0
  · rw [if_pos hc]
  · rw [if_neg hc]
    by_cases hv : m_versionAndHeaderLen (ByteSwap packet) ≠ 0x45
    · simp only [if_pos hv]
    · simp only [if_neg hv, if_pos hl]

/-- Witness of C5: total length 19 (too short), and total length 28 in a 27-octet
Ethernet payload (too long). -/
theorem OnRxPacket_drops_bad_length_witness :
    (m_totalLength (ByteSwap exampleShort) = (exampleShort 2).val * 256 + (exampleShort 3).val ∧
      (OnRxPacket exampleStack exampleShort 28).dispatch = RxDispatch.none) ∧
    (m_totalLength (ByteSwap examplePing) = (examplePing 2).val * 256 + (examplePing 3).val ∧
      (OnRxPacket exampleStack examplePing 27).dispatch = RxDispatch.none) :=
  ⟨OnRxPacket_drops_bad_length exampleStack exampleShort 28 (Or.inl (by decide)),
    OnRxPacket_drops_bad_length exampleStack examplePing 27 (Or.inr (by decide))⟩

/-- C6: the fragment check of `OnRxPacket` passes exactly when the reserved (evil) bit
`0x80` and the More-Fragments bit `0x20` of the flags octet are clear and the full 13-bit
fragment offset is zero; toggling the DF bit `0x40` never changes the outcome; and every
packet failing the check causes no upper-layer call. -/
theorem OnRxPacket_fragment_check (self : IPv4Protocol) (packet : IPv4Packet)
    (ethernetPayloadLength : Nat) :
    (passesFragmentCheck (ByteSwap packet) ↔
      (m_flagsFragOffHigh (ByteSwap packet) &&& 0x80 = 0
        ∧ m_flagsFragOffHigh (ByteSwap packet) &&& 0x20 = 0
        ∧ fragmentOffset (ByteSwap packet) = 0))
    ∧ (∀ q : IPv4Packet,
        m_flagsFragOffHigh q = m_flagsFragOffHigh (ByteSwap packet) ^^^ 0x40 →
        m_fragOffLow q = m_fragOffLow (ByteSwap packet) →
        (passesFragmentCheck q ↔ passesFragmentCheck (ByteSwap packet)))
    ∧ (¬ passesFragmentCheck (ByteSwap packet) →
        (OnRxPacket self packet ethernetPayloadLength).dispatch = RxDispatch.none) := by
  refine ⟨?_, ?_, ?_⟩
  · rw [passesFragmentCheck_iff]
    unfold fragmentOffset m_flagsFragOffHigh
    rw [byte_and_bf (ByteSwap packet 6)]
    constructor
    · rintro ⟨⟨h1, h2, h3⟩, h4⟩
      refine ⟨h1, h2, ?_⟩
      rw [h3, h4]
    · rintro ⟨h1, h2, h3⟩
      refine ⟨⟨h1, h2, ?_⟩, ?_⟩ <;> omega
  · intro q hq1 hq2
    rw [passesFragmentCheck_iff, passesFragmentCheck_iff, hq1, hq2]
    unfold m_flagsFragOffHigh
    rw [byte_xor_df (ByteSwap packet 6)]
  · intro hfail
    apply OnRxPacket_dispatch_rejected
    rintro ⟨_, _, _, _, hf, _⟩
    exact hfail hf

/-- Witness of C6: a packet with More-Fragments set and a valid header checksum is
dropped. -/
theorem OnRxPacket_fragment_check_witness :
    InternetChecksum exampleFragment (HeaderLength exampleFragment) 0 = 0xffff ∧
      ¬ passesFragmentCheck (ByteSwap exampleFragment) ∧
      (OnRxPacket exampleStack exampleFragment 28).dispatch = RxDispatch.none :=
  ⟨by decide, by decide,
    (OnRxPacket_fragment_check exampleStack exampleFragment 28).2.2 (by decide)⟩

/-- C7: a received packet whose destination address is not the host address, not the
configured broadcast address, not 255.255.255.255 and not in 224.0.0.0/4 (first octet
in 224..239) causes no upper-layer call. -/
theorem OnRxPacket_drops_foreign (self : IPv4Protocol) (packet : IPv4Packet)
    (ethernetPayloadLength : Nat)
    (hus : m_destAddress packet ≠ self.m_config.m_address)
    (hbc : m_destAddress packet ≠ self.m_config.m_broadcast)
    (hlb : m_destAddress packet ≠ ⟨255, 255, 255, 255⟩)
    (hmc : ¬ (224 ≤ (m_destAddress packet).m_octets0.val
      ∧ (m_destAddress packet).m_octets0.val ≤ 239)) :
    (OnRxPacket self packet ethernetPayloadLength).dispatch = RxDispatch.none := by
  apply OnRxPacket_dispatch_rejected
  rintro ⟨_, _, _, _, _, ht⟩
  apply ht
  rw [m_destAddress_ByteSwap]
  unfold GetAddressType
  rw [if_neg hus, if_neg hbc, if_neg hlb, if_neg]
  rw [byte_and_f0]
  exact hmc

/-- Witness of C7: an ICMP packet for 10.0.0.9 with a valid header checksum. -/
theorem OnRxPacket_drops_foreign_witness :
    InternetChecksum exampleForeign (HeaderLength exampleForeign) 0 = 0xffff ∧
      (OnRxPacket exampleStack exampleForeign 28).dispatch = RxDispatch.none :=
  ⟨by decide,
    OnRxPacket_drops_foreign exampleStack exampleForeign 28 (by decide) (by decide) (by decide)
      (by decide)⟩

/-- C8: with an ICMP handler registered, `OnRxPacket` invokes it if and only if the header
checksum is `0xFFFF`, version+IHL is `0x45`, `20 <= total_length <= ethernetPayloadLength`,
the fragment check passes, the protocol is ICMP and the destination classifies as
unicast-us or broadcast; in particular a packet whose destination classifies as multicast
is never delivered to the ICMP handler. -/
theorem OnRxPacket_icmp_iff (self : IPv4Protocol) (packet : IPv4Packet)
    (ethernetPayloadLength : Nat) (hreg : self.m_icmpv4 = true) :
    ((∃ payload length source,
        (OnRxPacket self packet ethernetPayloadLength).dispatch
          = RxDispatch.icmpv4 payload length source) ↔
      (InternetChecksum packet (HeaderLength packet) 0 = 0xffff
        ∧ m_versionAndHeaderLen (ByteSwap packet) = 0x45
        ∧ 20 ≤ m_totalLength (ByteSwap packet)
        ∧ m_totalLength (ByteSwap packet) ≤ ethernetPayloadLength
        ∧ passesFragmentCheck (ByteSwap packet)
        ∧ m_protocol (ByteSwap packet) = IP_PROTO_ICMP
        ∧ (GetAddressType self (m_destAddress (ByteSwap packet)) = AddressType.ADDR_UNICAST_US
          ∨ GetAddressType self (m_destAddress (ByteSwap packet))
            = AddressType.ADDR_BROADCAST)))
    ∧ (GetAddressType self (m_destAddress (ByteSwap packet)) = AddressType.ADDR_MULTICAST →
        ¬ ∃ payload length source,
          (OnRxPacket self packet ethernetPayloadLength).dispatch
            = RxDispatch.icmpv4 payload length source) := by
  have main : (∃ payload length source,
        (OnRxPacket self packet ethernetPayloadLength).dispatch
          = RxDispatch.icmpv4 payload length source) ↔
      (InternetChecksum packet (HeaderLength packet) 0 = 0xffff
        ∧ m_versionAndHeaderLen (ByteSwap packet) = 0x45
        ∧ 20 ≤ m_totalLength (ByteSwap packet)
        ∧ m_totalLength (ByteSwap packet) ≤ ethernetPayloadLength
        ∧ passesFragmentCheck (ByteSwap packet)
        ∧ m_protocol (ByteSwap packet) = IP_PROTO_ICMP
        ∧ (GetAddressType self (m_destAddress (ByteSwap packet)) = AddressType.ADDR_UNICAST_US
          ∨ GetAddressType self (m_destAddress (ByteSwap packet))
            = AddressType.ADDR_BROADCAST)) := by
    by_cases hacc : InternetChecksum packet (HeaderLength packet) 0 = 0xffff
        ∧ m_versionAndHeaderLen (ByteSwap packet) = 0x45
        ∧ 20 ≤ m_totalLength (ByteSwap packet)
        ∧ m_totalLength (ByteSwap packet) ≤ ethernetPayloadLength
        ∧ passesFragmentCheck (ByteSwap packet)
        ∧ GetAddressType self (m_destAddress (ByteSwap packet))
            ≠ AddressType.ADDR_UNICAST_OTHER
    · obtain ⟨hc, hv, hl1, hl2, hf, ht⟩ := hacc
      rw [OnRxPacket_dispatch_accepted self packet ethernetPayloadLength hc hv hl1 hl2 hf ht]
      by_cases hp : m_protocol (ByteSwap packet) = IP_PROTO_ICMP
      · by_cases hty : GetAddressType self (m_destAddress (ByteSwap packet))
            = AddressType.ADDR_UNICAST_US
          ∨ GetAddressType self (m_destAddress (ByteSwap packet)) = AddressType.ADDR_BROADCAST
        · rw [if_pos hp, if_pos ⟨hreg, hty⟩]
          exact ⟨fun _ => ⟨hc, hv, hl1, hl2, hf, hp, hty⟩, fun _ => ⟨_, _, _, rfl⟩⟩
        · rw [if_pos hp, if_neg (fun h => hty h.2)]
          constructor
          · rintro ⟨_, _, _, h⟩
            cases h
          · rintro ⟨_, _, _, _, _, _, h⟩
            exact absurd h hty
      · rw [if_neg hp]
        constructor
        · rintro ⟨_, _, _, h⟩
          split_ifs at h
        · rintro ⟨_, _, _, _, _, h, _⟩
          exact absurd h hp
    · rw [OnRxPacket_dispatch_rejected self packet ethernetPayloadLength hacc]
      constructor
      · rintro ⟨_, _, _, h⟩
        cases h
      · rintro ⟨hc, hv, hl1, hl2, hf, _, hty⟩
        exfalso
        apply hacc
        refine ⟨hc, hv, hl1, hl2, hf, ?_⟩
        rcases hty with h | h <;> rw [h] <;> decide
  refine ⟨main, ?_⟩
  intro hm hex
  obtain ⟨_, _, _, _, _, _, hty⟩ := main.mp hex
  rw [hm] at hty
  rcases hty with h | h <;> cases h

set_option maxRecDepth 100000 in
/-- Witness of C8: the ICMP packet addressed to the host is delivered, the one addressed
to 224.0.0.1 is not. -/
theorem OnRxPacket_icmp_iff_witness :
    exampleStack.m_icmpv4 = true
      ∧ (∃ payload length source,
          (OnRxPacket exampleStack examplePing 28).dispatch
            = RxDispatch.icmpv4 payload length source)
      ∧ ¬ (∃ payload length source,
          (OnRxPacket exampleStack exampleMulticast 28).dispatch
            = RxDispatch.icmpv4 payload length source) :=
  ⟨rfl, (OnRxPacket_icmp_iff exampleStack examplePing 28 rfl).1.mpr (by decide),
    (OnRxPacket_icmp_iff exampleStack exampleMulticast 28 rfl).2 (by decide)⟩

/-- C9: with a TCP handler registered, `OnRxPacket` invokes it if and only if the header
checksum is `0xFFFF`, version+IHL is `0x45`, `20 <= total_length <= ethernetPayloadLength`,
the fragment check passes, the protocol is TCP and the destination equals the host
address; the handler then receives the payload at offset 20, payload length
`total_length - 20`, the packet's source address, and `PseudoHeaderChecksum` computed over
that same payload length. -/
theorem OnRxPacket_tcp_iff (self : IPv4Protocol) (packet : IPv4Packet)
    (ethernetPayloadLength : Nat) (hreg : self.m_tcp = true) :
    ((∃ payload length source pseudo,
        (OnRxPacket self packet ethernetPayloadLength).dispatch
          = RxDispatch.tcp payload length source pseudo) ↔
      (InternetChecksum packet (HeaderLength packet) 0 = 0xffff
        ∧ m_versionAndHeaderLen (ByteSwap packet) = 0x45
        ∧ 20 ≤ m_totalLength (ByteSwap packet)
        ∧ m_totalLength (ByteSwap packet) ≤ ethernetPayloadLength
        ∧ passesFragmentCheck (ByteSwap packet)
        ∧ m_protocol (ByteSwap packet) = IP_PROTO_TCP
        ∧ m_destAddress packet = self.m_config.m_address))
    ∧ (∀ payload length source pseudo,
        (OnRxPacket self packet ethernetPayloadLength).dispatch
          = RxDispatch.tcp payload length source pseudo →
        payload = 20
          ∧ length = m_totalLength (ByteSwap packet) - 20
          ∧ source = m_sourceAddress packet
          ∧ pseudo = PseudoHeaderChecksum (ByteSwap packet)
              (m_totalLength (ByteSwap packet) - 20)) := by
  by_cases hacc : InternetChecksum packet (HeaderLength packet) 0 = 0xffff
      ∧ m_versionAndHeaderLen (ByteSwap packet) = 0x45
      ∧ 20 ≤ m_totalLength (ByteSwap packet)
      ∧ m_totalLength (ByteSwap packet) ≤ ethernetPayloadLength
      ∧ passesFragmentCheck (ByteSwap packet)
      ∧ GetAddressType self (m_destAddress (ByteSwap packet))
          ≠ AddressType.ADDR_UNICAST_OTHER
  · obtain ⟨hc, hv, hl1, hl2, hf, ht⟩ := hacc
    rw [OnRxPacket_dispatch_accepted self packet ethernetPayloadLength hc hv hl1 hl2 hf ht]
    have hne : IP_PROTO_TCP ≠ IP_PROTO_ICMP := by decide
    by_cases hp : m_protocol (ByteSwap packet) = IP_PROTO_TCP
    · have hp1 : ¬ m_protocol (ByteSwap packet) = IP_PROTO_ICMP := by
        rw [hp]; exact hne
      by_cases hty : GetAddressType self (m_destAddress (ByteSwap packet))
          = AddressType.ADDR_UNICAST_US
      · have hdest : m_destAddress packet = self.m_config.m_address := by
          rw [← m_destAddress_ByteSwap]
          exact (GetAddressType_unicast_us_iff self _).mp hty
        rw [if_neg hp1, if_pos hp, if_pos ⟨hreg, hty⟩]
        refine ⟨⟨fun _ => ⟨hc, hv, hl1, hl2, hf, hp, hdest⟩, fun _ => ⟨_, _, _, _, rfl⟩⟩, ?_⟩
        intro payload length source pseudo h
        injection h with h1 h2 h3 h4
        have hpl := PayloadLength_of_version (ByteSwap packet) hv hl1
        refine ⟨?_, ?_, ?_, ?_⟩
        · rw [← h1]
          exact HeaderLength_of_version (ByteSwap packet) hv
        · rw [← h2, hpl]
        · rw [← h3, m_sourceAddress_ByteSwap]
        · rw [← h4, hpl]
      · rw [if_neg hp1, if_pos hp, if_neg (fun h => hty h.2)]
        refine ⟨⟨?_, ?_⟩, ?_⟩
        · rintro ⟨_, _, _, _, h⟩
          cases h
        · rintro ⟨_, _, _, _, _, _, h⟩
          exfalso
          apply hty
          rw [m_destAddress_ByteSwap]
          exact (GetAddressType_unicast_us_iff self _).mpr h
        · intro _ _ _ _ h
          cases h
    · refine ⟨⟨?_, ?_⟩, ?_⟩
      · rintro ⟨_, _, _, _, h⟩
        rw [if_neg hp] at h
        split_ifs at h
      · rintro ⟨_, _, _, _, _, h, _⟩
        exact absurd h hp
      · intro _ _ _ _ h
        rw [if_neg hp] at h
        split_ifs at h
  · rw [OnRxPacket_dispatch_rejected self packet ethernetPayloadLength hacc]
    refine ⟨⟨?_, ?_⟩, ?_⟩
    · rintro ⟨_, _, _, _, h⟩
      cases h
    · rintro ⟨hc, hv, hl1, hl2, hf, _, hd⟩
      exfalso
      apply hacc
      refine ⟨hc, hv, hl1, hl2, hf, ?_⟩
      rw [m_destAddress_ByteSwap, (GetAddressType_unicast_us_iff self _).mpr hd]
      decide
    · intro _ _ _ _ h
      cases h

set_option maxRecDepth 100000 in
/-- Witness of C9: the TCP packet addressed to the host (total length 40) reaches the TCP
handler with payload length 20 and source 192.168.1.2. -/
theorem OnRxPacket_tcp_iff_witness :
    exampleStack.m_tcp = true
      ∧ (OnRxPacket exampleStack exampleTcp 60).dispatch
          = RxDispatch.tcp 20 20 ⟨192, 168, 1, 2⟩ (PseudoHeaderChecksum exampleTcp 20)
      ∧ (∃ payload length source pseudo,
          (OnRxPacket exampleStack exampleTcp 60).dispatch
            = RxDispatch.tcp payload length source pseudo) :=
  ⟨rfl, by decide, (OnRxPacket_tcp_iff exampleStack exampleTcp 60 rfl).1.mpr (by decide)⟩

/-- C10: for every address and configuration, `GetAddressType(addr)` is unicast-us if
`addr` equals the host address; otherwise broadcast if `addr` equals the configured
broadcast address or 255.255.255.255; otherwise multicast if the top four bits of the
first octet are `1110` (224.0.0.0/4); otherwise unicast-other.  The tests are applied in
that order, so the host address is unicast-us whatever later rule it also matches. -/
theorem GetAddressType_spec (self : IPv4Protocol) (addr : IPv4Address) :
    GetAddressType self addr =
      (if addr = self.m_config.m_address then AddressType.ADDR_UNICAST_US
       else if addr = self.m_config.m_broadcast ∨ addr = ⟨255, 255, 255, 255⟩ then
         AddressType.ADDR_BROADCAST
       else if addr.m_octets0.val >>> 4 = 0b1110 then AddressType.ADDR_MULTICAST
       else AddressType.ADDR_UNICAST_OTHER)
    ∧ GetAddressType self self.m_config.m_address = AddressType.ADDR_UNICAST_US := by
  constructor
  · unfold GetAddressType
    by_cases h1 : addr = self.m_config.m_address
    · rw [if_pos h1, if_pos h1]
    · rw [if_neg h1, if_neg h1]
      by_cases h2 : addr = self.m_config.m_broadcast
      · rw [if_pos h2, if_pos (Or.inl h2)]
      · rw [if_neg h2]
        by_cases h3 : addr = ⟨255, 255, 255, 255⟩
        · rw [if_pos h3, if_pos (Or.inr h3)]
        · have h23 : ¬ (addr = self.m_config.m_broadcast ∨ addr = ⟨255, 255, 255, 255⟩) :=
            fun h => h.elim h2 h3
          rw [if_neg h3, if_neg h23]
          by_cases h4 : addr.m_octets0.val &&& 0xf0 = 0xe0
          · rw [if_pos h4, if_pos ((byte_top_nibble addr.m_octets0).mp h4)]
          · rw [if_neg h4, if_neg (fun h => h4 ((byte_top_nibble addr.m_octets0).mpr h))]
  · exact (GetAddressType_unicast_us_iff self _).mpr rfl

/-- C11: assuming the Ethernet driver supplies a TX frame, `GetTxPacket(dest, proto)`
returns null if and only if `dest` is the host's own address, or `dest` classifies as
unicast-other and the ARP cache lookup for `dest` fails; for broadcast and multicast
destinations it never returns null. -/
theorem GetTxPacket_null_iff (self : IPv4Protocol) (m_cache : ARPCache)
    (m_eth : EthernetProtocol) (dest : IPv4Address) (proto : Nat)
    (hframe : ∀ ethertype destmac, m_eth.GetTxFrame ethertype destmac ≠ none) :
    ((GetTxPacket self m_cache m_eth dest proto).reply = TxPacket.null ↔
      (dest = self.m_config.m_address
        ∨ (GetAddressType self dest = AddressType.ADDR_UNICAST_OTHER
            ∧ m_cache.Lookup dest = none)))
    ∧ (GetAddressType self dest = AddressType.ADDR_BROADCAST
        ∨ GetAddressType self dest = AddressType.ADDR_MULTICAST →
        ∃ reply, (GetTxPacket self m_cache m_eth dest proto).reply = TxPacket.packet reply) := by
  have hpacket : ∀ lookups destmac,
      ∃ reply, (GetTxPacket.fill self m_eth lookups destmac dest proto).reply
        = TxPacket.packet reply := by
    intro lookups destmac
    unfold GetTxPacket.fill
    cases hf : m_eth.GetTxFrame ETHERTYPE_IPV4 destmac with
    | none => exact absurd hf (hframe _ _)
    | some payload => exact ⟨_, rfl⟩
  have hus := GetAddressType_unicast_us_iff self dest
  unfold GetTxPacket
  cases hty : GetAddressType self dest with
  | ADDR_MULTICAST =>
    rw [hty] at hus
    refine ⟨⟨fun h => absurd h (fill_reply_ne_null _ _ _ _ _ _), ?_⟩, fun _ => hpacket _ _⟩
    rintro (h | ⟨h, _⟩)
    · cases hus.mpr h
    · cases h
  | ADDR_BROADCAST =>
    rw [hty] at hus
    refine ⟨⟨fun h => absurd h (fill_reply_ne_null _ _ _ _ _ _), ?_⟩, fun _ => hpacket _ _⟩
    rintro (h | ⟨h, _⟩)
    · cases hus.mpr h
    · cases h
  | ADDR_UNICAST_OTHER =>
    rw [hty] at hus
    refine ⟨?_, fun h => by rcases h with h | h <;> cases h⟩
    cases hl : m_cache.Lookup dest with
    | none => exact ⟨fun _ => Or.inr ⟨rfl, rfl⟩, fun _ => rfl⟩
    | some destmac =>
      refine ⟨fun h => absurd h (fill_reply_ne_null _ _ _ _ _ _), ?_⟩
      rintro (h | ⟨_, h⟩)
      · cases hus.mpr h
      · cases h
  | ADDR_UNICAST_US =>
    rw [hty] at hus
    exact ⟨⟨fun _ => Or.inl (hus.mp rfl), fun _ => rfl⟩,
      fun h => by rcases h with h | h <;> cases h⟩

/-- Witness of C11: with a driver that always has a frame, sending to the host's own
address returns null, and so does sending to 10.0.0.9, which the ARP cache does not know. -/
theorem GetTxPacket_null_iff_witness :
    (∀ ethertype destmac, exampleEth.GetTxFrame ethertype destmac ≠ none)
      ∧ (GetTxPacket exampleStack exampleCache exampleEth ⟨192, 168, 1, 1⟩ 1).reply
          = TxPacket.null
      ∧ (GetTxPacket exampleStack exampleCache exampleEth ⟨10, 0, 0, 9⟩ 1).reply
          = TxPacket.null :=
  ⟨fun _ _ h => Option.noConfusion h,
    (GetTxPacket_null_iff exampleStack exampleCache exampleEth ⟨192, 168, 1, 1⟩ 1
      (fun _ _ h => Option.noConfusion h)).1.mpr (Or.inl rfl),
    (GetTxPacket_null_iff exampleStack exampleCache exampleEth ⟨10, 0, 0, 9⟩ 1
      (fun _ _ h => Option.noConfusion h)).1.mpr (Or.inr ⟨by decide, by decide⟩)⟩

/-- C12: whenever `GetTxPacket` proceeds to frame allocation, the frame is requested with
ethertype IPv4 and destination MAC `ff:ff:ff:ff:ff:ff` when `dest` classifies as broadcast
or multicast (and the ARP cache is not consulted), and with exactly the MAC returned by
the ARP cache lookup when `dest` classifies as unicast-other. -/
theorem GetTxPacket_frame_request (self : IPv4Protocol) (m_cache : ARPCache)
    (m_eth : EthernetProtocol) (dest : IPv4Address) (proto : Nat) :
    (GetAddressType self dest = AddressType.ADDR_BROADCAST
        ∨ GetAddressType self dest = AddressType.ADDR_MULTICAST →
      (GetTxPacket self m_cache m_eth dest proto).frameRequests
          = [(ETHERTYPE_IPV4, ⟨0xff, 0xff, 0xff, 0xff, 0xff, 0xff⟩)]
        ∧ (GetTxPacket self m_cache m_eth dest proto).arpLookups = [])
    ∧ (GetAddressType self dest = AddressType.ADDR_UNICAST_OTHER →
        ∀ destmac, m_cache.Lookup dest = some destmac →
          (GetTxPacket self m_cache m_eth dest proto).frameRequests
              = [(ETHERTYPE_IPV4, destmac)]
            ∧ (GetTxPacket self m_cache m_eth dest proto).arpLookups = [dest]) := by
  unfold GetTxPacket
  constructor
  · rintro (h | h) <;> rw [h] <;>
      exact ⟨fill_frameRequests _ _ _ _ _ _, fill_arpLookups _ _ _ _ _ _⟩
  · intro h destmac hl
    rw [h]
    simp only [hl]
    exact ⟨fill_frameRequests _ _ _ _ _ _, fill_arpLookups _ _ _ _ _ _⟩

set_option maxRecDepth 100000 in
/-- Witness of C12: a broadcast, a multicast and an ARP-resolved unicast destination. -/
theorem GetTxPacket_frame_request_witness :
    ((GetTxPacket exampleStack exampleCache exampleEth ⟨192, 168, 1, 255⟩ 1).frameRequests
          = [(ETHERTYPE_IPV4, ⟨0xff, 0xff, 0xff, 0xff, 0xff, 0xff⟩)]
        ∧ (GetTxPacket exampleStack exampleCache exampleEth ⟨192, 168, 1, 255⟩ 1).arpLookups
          = [])
      ∧ ((GetTxPacket exampleStack exampleCache exampleEth ⟨224, 0, 0, 1⟩ 1).frameRequests
          = [(ETHERTYPE_IPV4, ⟨0xff, 0xff, 0xff, 0xff, 0xff, 0xff⟩)]
        ∧ (GetTxPacket exampleStack exampleCache exampleEth ⟨224, 0, 0, 1⟩ 1).arpLookups = [])
      ∧ ((GetTxPacket exampleStack exampleCache exampleEth ⟨192, 168, 1, 2⟩ 6).frameRequests
          = [(ETHERTYPE_IPV4, ⟨0x02, 0x00, 0x00, 0x00, 0x00, 0x02⟩)]
        ∧ (GetTxPacket exampleStack exampleCache exampleEth ⟨192, 168, 1, 2⟩ 6).arpLookups
          = [⟨192, 168, 1, 2⟩]) :=
  ⟨(GetTxPacket_frame_request exampleStack exampleCache exampleEth ⟨192, 168, 1, 255⟩ 1).1
      (Or.inl (by decide)),
    (GetTxPacket_frame_request exampleStack exampleCache exampleEth ⟨224, 0, 0, 1⟩ 1).1
      (Or.inr (by decide)),
    (GetTxPacket_frame_request exampleStack exampleCache exampleEth ⟨192, 168, 1, 2⟩ 6).2
      (by decide) _ (by decide)⟩

/-- C13: every non-null packet returned by `GetTxPacket(dest, proto)` has version+IHL
`0x45`, DSCP/ECN 0, fragment id 0, flags octet `0x40` (only DF set), fragment offset 0,
TTL 255, protocol `proto`, source address the configured host address, destination
address `dest` and header checksum 0. -/
theorem GetTxPacket_fields (self : IPv4Protocol) (m_cache : ARPCache)
    (m_eth : EthernetProtocol) (dest : IPv4Address) (proto : Nat) (hproto : proto < 256)
    (reply : IPv4Packet)
    (h : (GetTxPacket self m_cache m_eth dest proto).reply = TxPacket.packet reply) :
    m_versionAndHeaderLen reply = 0x45 ∧ m_dscpAndECN reply = 0 ∧ m_fragID reply = 0
      ∧ m_flagsFragOffHigh reply = 0x40 ∧ fragmentOffset reply = 0 ∧ m_ttl reply = 255
      ∧ m_protocol reply = proto ∧ m_sourceAddress reply = self.m_config.m_address
      ∧ m_destAddress reply = dest ∧ m_headerChecksum reply = 0 := by
  have key : ∀ lookups destmac,
      (GetTxPacket.fill self m_eth lookups destmac dest proto).reply = TxPacket.packet reply →
      m_versionAndHeaderLen reply = 0x45 ∧ m_dscpAndECN reply = 0 ∧ m_fragID reply = 0
        ∧ m_flagsFragOffHigh reply = 0x40 ∧ fragmentOffset reply = 0 ∧ m_ttl reply = 255
        ∧ m_protocol reply = proto ∧ m_sourceAddress reply = self.m_config.m_address
        ∧ m_destAddress reply = dest ∧ m_headerChecksum reply = 0 := by
    intro lookups destmac hfill
    obtain ⟨h1, h2, h3, h4, h5, h6, h7, h8, h9, h10⟩ :=
      fill_fields self m_eth lookups destmac dest proto hproto reply hfill
    refine ⟨h1, h2, h3, h4, ?_, h6, h7, h8, h9, h10⟩
    unfold fragmentOffset
    rw [h4, h5]
    decide
  unfold GetTxPacket at h
  cases hty : GetAddressType self dest with
  | ADDR_MULTICAST =>
    rw [hty] at h
    exact key _ _ h
  | ADDR_BROADCAST =>
    rw [hty] at h
    exact key _ _ h
  | ADDR_UNICAST_OTHER =>
    rw [hty] at h
    cases hl : m_cache.Lookup dest with
    | none =>
      simp only [hl] at h
      cases h
    | some destmac =>
      simp only [hl] at h
      exact key _ _ h
  | ADDR_UNICAST_US =>
    rw [hty] at h
    cases h

set_option maxRecDepth 100000 in
/-- Witness of C13: the TCP packet allocated for 192.168.1.2. -/
theorem GetTxPacket_fields_witness :
    ∃ reply,
      (GetTxPacket exampleStack exampleCache exampleEth ⟨192, 168, 1, 2⟩ 6).reply
          = TxPacket.packet reply
        ∧ m_versionAndHeaderLen reply = 0x45 ∧ m_dscpAndECN reply = 0 ∧ m_fragID reply = 0
        ∧ m_flagsFragOffHigh reply = 0x40 ∧ fragmentOffset reply = 0 ∧ m_ttl reply = 255
        ∧ m_protocol reply = 6 ∧ m_sourceAddress reply = exampleStack.m_config.m_address
        ∧ m_destAddress reply = ⟨192, 168, 1, 2⟩ ∧ m_headerChecksum reply = 0 :=
  ⟨_, rfl,
    GetTxPacket_fields exampleStack exampleCache exampleEth ⟨192, 168, 1, 2⟩ 6 (by decide) _ rfl⟩

set_option maxRecDepth 100000 in
/-- Counterexample to C14 as stated: for the packet `GetTxPacket` allocates towards
192.168.1.2 and `upperLayerLength = 65516`, `SendTxPacket` sets the frame payload length
and the total-length field to 0, not to `20 + 65516`. -/
theorem SendTxPacket_length_counterexample :
    ∃ p, (GetTxPacket exampleStack exampleCache exampleEth ⟨192, 168, 1, 2⟩ 6).reply
          = TxPacket.packet p
      ∧ (SendTxPacket p 65516).payloadLength = 0
      ∧ ((SendTxPacket p 65516).packet 2).val * 256 + ((SendTxPacket p 65516).packet 3).val = 0
      ∧ (SendTxPacket p 65516).payloadLength ≠ 20 + 65516 :=
  ⟨_, rfl, by decide, by decide, by decide⟩

/-- C14 (amended): for every packet allocated by `GetTxPacket` and every
`upperLayerLength`, `SendTxPacket` sets the 16-bit total-length field (big-endian on the
wire) to `(20 + upperLayerLength) mod 65536` and the Ethernet frame's payload length to
that same value; both equal `20 + upperLayerLength` whenever `upperLayerLength <= 65515`. -/
theorem SendTxPacket_total_length (self : IPv4Protocol) (m_cache : ARPCache)
    (m_eth : EthernetProtocol) (dest : IPv4Address) (proto : Nat) (p : IPv4Packet)
    (upperLayerLength : Nat)
    (h : (GetTxPacket self m_cache m_eth dest proto).reply = TxPacket.packet p) :
    ((SendTxPacket p upperLayerLength).packet 2).val * 256
        + ((SendTxPacket p upperLayerLength).packet 3).val = (20 + upperLayerLength) % 65536
      ∧ (SendTxPacket p upperLayerLength).payloadLength = (20 + upperLayerLength) % 65536
      ∧ (upperLayerLength ≤ 65515 →
          ((SendTxPacket p upperLayerLength).packet 2).val * 256
              + ((SendTxPacket p upperLayerLength).packet 3).val = 20 + upperLayerLength
            ∧ (SendTxPacket p upperLayerLength).payloadLength = 20 + upperLayerLength) := by
  have hv := GetTxPacket_version self m_cache m_eth dest proto p h
  obtain ⟨hlen, hwire⟩ := SendTxPacket_lengths p upperLayerLength hv
  refine ⟨hwire, hlen, fun hsmall => ?_⟩
  have hmod : (20 + upperLayerLength) % 65536 = 20 + upperLayerLength :=
    Nat.mod_eq_of_lt (by omega)
  rw [hwire, hlen, hmod]
  exact ⟨rfl, rfl⟩

set_option maxRecDepth 100000 in
/-- Witness of C14 (amended): a 100-octet upper layer on the packet allocated towards
192.168.1.2 gives total length and frame payload length 120. -/
theorem SendTxPacket_total_length_witness :
    ∃ p, (GetTxPacket exampleStack exampleCache exampleEth ⟨192, 168, 1, 2⟩ 6).reply
          = TxPacket.packet p
      ∧ ((SendTxPacket p 100).packet 2).val * 256 + ((SendTxPacket p 100).packet 3).val = 120
      ∧ (SendTxPacket p 100).payloadLength = 120 :=
  ⟨_, rfl,
    ((SendTxPacket_total_length exampleStack exampleCache exampleEth ⟨192, 168, 1, 2⟩ 6 _ 100
      rfl).2.2 (by decide))⟩

/-- C15: for every socket entry and every 16-bit `payloadLength`, `SendTxSegment` changes
`m_localSeq` to `(old m_localSeq + payloadLength) mod 2^32`. -/
theorem SendTxSegment_localSeq (state : TCPTableEntry) (packet : IPv4Packet)
    (payloadLength : Nat) (hlen : payloadLength < 65536) :
    (SendTxSegment state packet payloadLength).state.m_localSeq
      = (state.m_localSeq + payloadLength) % 2 ^ 32 := by
  have _ := hlen
  unfold SendTxSegment
  rw [SendSegment_localSeq]

/-- Witness of C15: 1460 payload octets on the example socket. -/
theorem SendTxSegment_localSeq_witness :
    1460 < 65536 ∧
      (SendTxSegment exampleSocket exampleTcp 1460).state.m_localSeq
        = (exampleSocket.m_localSeq + 1460) % 2 ^ 32 :=
  ⟨by decide, SendTxSegment_localSeq exampleSocket exampleTcp 1460 (by decide)⟩

set_option maxRecDepth 100000 in
/-- Counterexample to C16 as stated: on a socket with `m_localInitialSeq = 0xFFFFFFF0`
and `m_localSeq` at that value, sending 32 payload octets leaves `m_localSeq = 0x10`, not
`0x0F`. -/
theorem SendTxSegment_wrap_counterexample :
    exampleSocket.m_localInitialSeq = 0xFFFFFFF0 ∧ exampleSocket.m_localSeq = 0xFFFFFFF0
      ∧ (SendTxSegment exampleSocket exampleTcp 32).state.m_localSeq = 0x00000010
      ∧ (SendTxSegment exampleSocket exampleTcp 32).state.m_localSeq ≠ 0x0000000F :=
  ⟨rfl, rfl, by decide, by decide⟩

/-- C16 (amended): for a socket whose `m_localInitialSeq` is `0xFFFFFFF0` and whose
`m_localSeq` is at that value, sending 32 payload octets through `SendTxSegment` leaves
`m_localSeq = 0x00000010`. -/
theorem SendTxSegment_wrap (state : TCPTableEntry) (packet : IPv4Packet)
    (hinit : state.m_localInitialSeq = 0xFFFFFFF0) (hseq : state.m_localSeq = 0xFFFFFFF0) :
    (SendTxSegment state packet 32).state.m_localSeq = 0x00000010 := by
  have _ := hinit
  unfold SendTxSegment
  rw [SendSegment_localSeq]
  simp only [hseq]
  decide

/-- Witness of C16 (amended) on the example socket. -/
theorem SendTxSegment_wrap_witness :
    (SendTxSegment exampleSocket exampleTcp 32).state.m_localSeq = 0x00000010 :=
  SendTxSegment_wrap exampleSocket exampleTcp rfl rfl

/-- Counterexample to C17 as stated: with `a = [01]` and `b = [01]` the checksum of the
concatenation is `0x0101`, while `fold(0x0100 + 0x0100) = 0x0200`. -/
theorem InternetChecksum_append_counterexample :
    ([1] ++ [1] : List Byte).length ≤ 65535
      ∧ InternetChecksum (memOfList ([1] ++ [1])) 2 0 = 0x0101
      ∧ fold (InternetChecksum (memOfList [1]) 1 0 + InternetChecksum (memOfList [1]) 1 0)
          = 0x0200
      ∧ InternetChecksum (memOfList ([1] ++ [1])) ([1] ++ [1] : List Byte).length 0
          ≠ fold (InternetChecksum (memOfList [1]) ([1] : List Byte).length 0
              + InternetChecksum (memOfList [1]) ([1] : List Byte).length 0) :=
  ⟨by decide, by decide, by decide, by decide⟩

/-- C17 (amended): for all byte sequences `a` of even length and `b`, with combined
length at most 65535, `InternetChecksum(a ++ b) = fold(InternetChecksum(a) +
InternetChecksum(b))`, every checksum with initial value 0 and
`fold(x) = (x >> 16) + (x & 0xFFFF)`. -/
theorem InternetChecksum_append (a b : List Byte) (heven : a.length % 2 = 0)
    (hlen : a.length + b.length ≤ 65535) :
    InternetChecksum (memOfList (a ++ b)) (a.length + b.length) 0
      = fold (InternetChecksum (memOfList a) a.length 0
          + InternetChecksum (memOfList b) b.length 0) := by
  have _ := hlen
  have hsum : (specWords (memOfList (a ++ b)) (a.length + b.length)).sum
      = (specWords (memOfList a) a.length).sum + (specWords (memOfList b) b.length).sum := by
    rw [specWords_sum_add (memOfList (a ++ b)) (memOfList b) a.length b.length heven
      (fun j _ => memOfList_append_right a b j)]
    rw [specWords_sum_congr (memOfList (a ++ b)) (memOfList a) a.length
      (fun i hi => memOfList_append_left a b i hi)]
  rw [fold_eq_onesAdd, InternetChecksum_closed _ _ 0 (by omega),
    InternetChecksum_closed (memOfList a) _ 0 (by omega),
    InternetChecksum_closed (memOfList b) _ 0 (by omega), hsum]
  simp only [Nat.zero_add]
  rw [onesAdd_ocNorm _ _ (ocNorm_le _), ocNorm_add_ocNorm]

/-- Witness of C17 (amended): a two-octet `a` and a three-octet `b`. -/
theorem InternetChecksum_append_witness :
    InternetChecksum (memOfList ([0xff, 0xfe] ++ [0x12, 0x34, 0x56]))
        (([0xff, 0xfe] : List Byte).length + ([0x12, 0x34, 0x56] : List Byte).length) 0
      = fold (InternetChecksum (memOfList [0xff, 0xfe]) ([0xff, 0xfe] : List Byte).length 0
          + InternetChecksum (memOfList [0x12, 0x34, 0x56])
              ([0x12, 0x34, 0x56] : List Byte).length 0) :=
  InternetChecksum_append [0xff, 0xfe] [0x12, 0x34, 0x56] (by decide) (by decide)

/-- C18: for every byte sequence `d` of odd length `len <= 65534` (the first `len` octets
of any memory) and every 16-bit `initial`, `InternetChecksum(d, len, initial)` equals
`InternetChecksum` over `d` followed by one zero octet with length `len + 1`; for
`len = 1` the single octet `b` contributes the word `b * 256`. -/
theorem InternetChecksum_odd_pad (d padded : Mem) (len initial : Nat) (hodd : len % 2 = 1)
    (hlen : len ≤ 65534) (hinitial : initial < 65536)
    (hsame : ∀ i, i < len → padded i = d i) (hzero : padded len = 0) :
    InternetChecksum d len initial = InternetChecksum padded (len + 1) initial
      ∧ (len = 1 →
          InternetChecksum d len initial
            = (initial + (d 0).val * 256) % 65536 + (initial + (d 0).val * 256) / 65536) := by
  have _ := hlen
  constructor
  · rw [InternetChecksum_closed d len initial (by omega),
      InternetChecksum_closed padded (len + 1) initial (by omega), specWords_sum_succ, hzero,
      specWords_sum_congr padded d len hsame]
    simp
  · intro h1
    subst h1
    rw [InternetChecksum_eq_spec d 1 initial (by omega)]
    unfold specChecksum
    rw [specWords_one]
    rfl

/-- Witness of C18: the three octets `45 00 1c` against `45 00 1c 00`. -/
theorem InternetChecksum_odd_pad_witness :
    InternetChecksum (memOfList [0x45, 0x00, 0x1c, 0x99]) 3 0x1234
      = InternetChecksum (memOfList [0x45, 0x00, 0x1c, 0x00]) (3 + 1) 0x1234 :=
  (InternetChecksum_odd_pad (memOfList [0x45, 0x00, 0x1c, 0x99])
    (memOfList [0x45, 0x00, 0x1c, 0x00]) 3 0x1234 (by decide) (by decide) (by decide)
    (by decide) (by decide)).1

/-- C19: for every byte sequence `h` of length `len <= 65535` with
`InternetChecksum(h, len, 0) = 0xFFFF`, replacing any one octet by any different value
gives a sequence whose `InternetChecksum` differs from `0xFFFF`; so a 20-byte header
(version+IHL `0x45`) with a single corrupted octet is never passed on by `OnRxPacket`. -/
theorem InternetChecksum_detects_single_octet (h : Mem) (len i : Nat) (v : Byte)
    (hlen : len ≤ 65535) (hvalid : InternetChecksum h len 0 = 0xffff) (hi : i < len)
    (hv : v ≠ h i) :
    InternetChecksum (write8 h i v.val) len 0 ≠ 0xffff
      ∧ (len = 20 → (h 0).val = 0x45 → ∀ (self : IPv4Protocol) (ethernetPayloadLength : Nat),
          (OnRxPacket self (write8 h i v.val) ethernetPayloadLength).dispatch
            = RxDispatch.none) := by
  have _ := hlen
  have hthis : InternetChecksum (write8 h i v.val) len 0 ≠ 0xffff := by
    rw [InternetChecksum_closed h len 0 (by omega)] at hvalid
    rw [InternetChecksum_closed _ len 0 (by omega)]
    simp only [Nat.zero_add] at hvalid ⊢
    intro hbad
    have h1 := (ocNorm_eq_ffff_iff _).mp hvalid
    have h2 := (ocNorm_eq_ffff_iff _).mp hbad
    have hrel := specWords_sum_write8 h len i v.val hi
    have hvlt : v.val < 256 := v.isLt
    have holt : (h i).val < 256 := (h i).isLt
    have hne : v.val ≠ (h i).val := fun e => hv (Fin.ext e)
    rw [Nat.mod_eq_of_lt hvlt] at hrel
    unfold octetWeight at hrel
    split at hrel <;> omega
  refine ⟨hthis, ?_⟩
  intro h20 hver self ethernetPayloadLength
  subst h20
  apply OnRxPacket_dispatch_rejected
  rintro ⟨hc, hversion, _⟩
  rw [m_versionAndHeaderLen_ByteSwap] at hversion
  by_cases hi0 : i = 0
  · subst hi0
    rw [write8_val, if_pos rfl, Nat.mod_eq_of_lt v.isLt] at hversion
    exact hv (Fin.ext (by rw [hversion, hver]))
  · have hb0 : write8 h i v.val 0 = h 0 := write8_other h i v.val 0 (fun e => hi0 e.symm)
    have hlen20 : HeaderLength (write8 h i v.val) = 20 := by
      apply HeaderLength_of_version
      unfold m_versionAndHeaderLen
      rw [hb0]
      exact hver
    rw [hlen20] at hc
    exact hthis hc

set_option maxRecDepth 100000 in
/-- Witness of C19: the TTL octet of the valid ICMP header changed from `0x40` to `0x41`. -/
theorem InternetChecksum_detects_single_octet_witness :
    InternetChecksum examplePing 20 0 = 0xffff
      ∧ InternetChecksum (write8 examplePing 8 (0x41 : Byte).val) 20 0 ≠ 0xffff
      ∧ (OnRxPacket exampleStack (write8 examplePing 8 (0x41 : Byte).val) 28).dispatch
          = RxDispatch.none :=
  ⟨by decide,
    (InternetChecksum_detects_single_octet examplePing 20 8 0x41 (by decide) (by decide)
      (by decide) (by decide)).1,
    (InternetChecksum_detects_single_octet examplePing 20 8 0x41 (by decide) (by decide)
      (by decide) (by decide)).2 rfl (by decide) exampleStack 28⟩

/-- C20: for every packet and every 16-bit `length`, `PseudoHeaderChecksum(packet, length)`
equals `InternetChecksum` with initial value 0 over the 12 octets: the four source-address
octets, the four destination-address octets, a zero octet, the protocol octet, the high
octet of `length` and the low octet of `length`; that is, the one's-complement sum of the
six words `src[0..1]`, `src[2..3]`, `dst[0..1]`, `dst[2..3]`, protocol and `length`. -/
theorem PseudoHeaderChecksum_spec (packet : IPv4Packet) (length : Nat)
    (hlength : length < 65536) :
    PseudoHeaderChecksum packet length
        = InternetChecksum
            (memOfList
              [(m_sourceAddress packet).m_octets0, (m_sourceAddress packet).m_octets1,
               (m_sourceAddress packet).m_octets2, (m_sourceAddress packet).m_octets3,
               (m_destAddress packet).m_octets0, (m_destAddress packet).m_octets1,
               (m_destAddress packet).m_octets2, (m_destAddress packet).m_octets3,
               0, Fin.ofNat (m_protocol packet), Fin.ofNat (length / 256),
               Fin.ofNat (length % 256)]) 12 0
      ∧ PseudoHeaderChecksum packet length
        = [(m_sourceAddress packet).m_octets0.val * 256 + (m_sourceAddress packet).m_octets1.val,
           (m_sourceAddress packet).m_octets2.val * 256 + (m_sourceAddress packet).m_octets3.val,
           (m_destAddress packet).m_octets0.val * 256 + (m_destAddress packet).m_octets1.val,
           (m_destAddress packet).m_octets2.val * 256 + (m_destAddress packet).m_octets3.val,
           m_protocol packet, length].foldl
            (fun x w => (x + w) % 65536 + (x + w) / 65536) 0 := by
  have hhi : (⟨(length >>> 8) % 256, Nat.mod_lt _ (by decide)⟩ : Byte)
      = Fin.ofNat (length / 256) := by
    apply Fin.ext
    simp only [Nat.shiftRight_eq_div_pow, Fin.ofNat]
  have hlo : (⟨(length &&& 0xff) % 256, Nat.mod_lt _ (by decide)⟩ : Byte)
      = Fin.ofNat (length % 256) := by
    apply Fin.ext
    have e : length &&& 0xff = length % 256 := Nat.and_pow_two_sub_one_eq_mod length 8
    simp only [e, Fin.ofNat]
  have hproto : packet 9 = Fin.ofNat (m_protocol packet) := by
    apply Fin.ext
    simp only [Fin.ofNat, m_protocol]
    exact (Nat.mod_eq_of_lt (packet 9).isLt).symm
  have hfirst : PseudoHeaderChecksum packet length
      = InternetChecksum
          (memOfList
            [(m_sourceAddress packet).m_octets0, (m_sourceAddress packet).m_octets1,
             (m_sourceAddress packet).m_octets2, (m_sourceAddress packet).m_octets3,
             (m_destAddress packet).m_octets0, (m_destAddress packet).m_octets1,
             (m_destAddress packet).m_octets2, (m_destAddress packet).m_octets3,
             0, Fin.ofNat (m_protocol packet), Fin.ofNat (length / 256),
             Fin.ofNat (length % 256)]) 12 0 := by
    unfold PseudoHeaderChecksum
    simp only [hhi, hlo, ← hproto, List.length_cons, List.length_nil]
  refine ⟨hfirst, ?_⟩
  rw [hfirst, InternetChecksum_eq_spec _ 12 0 (by omega)]
  unfold specChecksum
  have hwords : specWords
      (memOfList
        [(m_sourceAddress packet).m_octets0, (m_sourceAddress packet).m_octets1,
         (m_sourceAddress packet).m_octets2, (m_sourceAddress packet).m_octets3,
         (m_destAddress packet).m_octets0, (m_destAddress packet).m_octets1,
         (m_destAddress packet).m_octets2, (m_destAddress packet).m_octets3,
         0, Fin.ofNat (m_protocol packet), Fin.ofNat (length / 256),
         Fin.ofNat (length % 256)]) 12
      = [(m_sourceAddress packet).m_octets0.val * 256 + (m_sourceAddress packet).m_octets1.val,
         (m_sourceAddress packet).m_octets2.val * 256 + (m_sourceAddress packet).m_octets3.val,
         (m_destAddress packet).m_octets0.val * 256 + (m_destAddress packet).m_octets1.val,
         (m_destAddress packet).m_octets2.val * 256 + (m_destAddress packet).m_octets3.val,
         (0 : Byte).val * 256 + (Fin.ofNat (m_protocol packet) : Byte).val,
         (Fin.ofNat (length / 256) : Byte).val * 256 + (Fin.ofNat (length % 256) : Byte).val] :=
    rfl
  have hp : (0 : Byte).val * 256 + (Fin.ofNat (m_protocol packet) : Byte).val
      = m_protocol packet := by
    rw [← hproto]
    simp [m_protocol]
  have hl : (Fin.ofNat (length / 256) : Byte).val * 256 + (Fin.ofNat (length % 256) : Byte).val
      = length := by
    simp only [Fin.ofNat]
    omega
  rw [hwords, hp, hl]
  rfl

set_option maxRecDepth 100000 in
/-- Witness of C20: the TCP packet from 192.168.1.2 to 192.168.1.1 with a 20-octet
segment. -/
theorem PseudoHeaderChecksum_spec_witness :
    (20 : Nat) < 65536 ∧
      PseudoHeaderChecksum exampleTcp 20
        = [0xc0a8, 0x0102, 0xc0a8, 0x0101, 6, 20].foldl
            (fun x w => (x + w) % 65536 + (x + w) / 65536) 0 :=
  ⟨by decide, (PseudoHeaderChecksum_spec exampleTcp 20 (by decide)).2⟩

/-- C21: for every NUL-terminated string `c_str`, every byte buffer `pack_str` and every
16-bit `pack_str_len`, `StringMatchWithLength(c_str, pack_str, pack_str_len)` returns true
if and only if the octets of `c_str` before its terminator are exactly the first
`pack_str_len` octets of `pack_str`; a `c_str` shorter than `pack_str_len` (a proper
prefix), a longer one, or a `pack_str` with a zero octet within `pack_str_len` never
matches. -/
theorem StringMatchWithLength_spec (c_str : List Byte) (pack_str : Mem) (pack_str_len : Nat)
    (hterm : (0 : Byte) ∈ c_str) (hlen : pack_str_len < 65536) :
    (StringMatchWithLength c_str pack_str pack_str_len = true ↔
        c_str.takeWhile (fun b => b != 0) = (List.range pack_str_len).map pack_str)
      ∧ (strlen c_str < pack_str_len →
          StringMatchWithLength c_str pack_str pack_str_len = false)
      ∧ (pack_str_len < strlen c_str →
          StringMatchWithLength c_str pack_str pack_str_len = false)
      ∧ ((∃ j, j < pack_str_len ∧ pack_str j = 0) →
          StringMatchWithLength c_str pack_str pack_str_len = false) := by
  have _ := hterm
  have _ := hlen
  have hiff := StringMatchWithLength_true_iff c_str pack_str pack_str_len
  have hfalse : ∀ {P : Prop}, (StringMatchWithLength c_str pack_str pack_str_len = true → P →
      False) → P → StringMatchWithLength c_str pack_str pack_str_len = false := by
    intro P h hp
    cases hm : StringMatchWithLength c_str pack_str pack_str_len with
    | false => rfl
    | true => exact absurd hp (fun hp' => h hm hp')
  refine ⟨?_, ?_, ?_, ?_⟩
  · rw [hiff, list_eq_map_range_iff, ← strlen_eq_takeWhile]
    constructor
    · rintro ⟨h1, h2⟩
      refine ⟨h1, fun i hi => ?_⟩
      rw [memOfList_takeWhile c_str i (by omega)]
      exact h2 i hi
    · rintro ⟨h1, h2⟩
      refine ⟨h1, fun i hi => ?_⟩
      rw [← memOfList_takeWhile c_str i (by omega)]
      exact h2 i hi
  · apply hfalse
    intro hm hlt
    have := (hiff.mp hm).1
    omega
  · apply hfalse
    intro hm hlt
    have := (hiff.mp hm).1
    omega
  · apply hfalse
    rintro hm ⟨j, hj, hz⟩
    obtain ⟨h1, h2⟩ := hiff.mp hm
    have hne := memOfList_ne_zero_of_lt_strlen c_str j (by omega)
    rw [h2 j hj] at hne
    exact hne hz

/-- Witness of C21: "ssh" matches the first three octets of `ssh-`, but neither its first
two nor its first four octets. -/
theorem StringMatchWithLength_spec_witness :
    (0 : Byte) ∈ exampleCStr
      ∧ StringMatchWithLength exampleCStr (memOfList [0x73, 0x73, 0x68, 0x2d]) 3 = true
      ∧ StringMatchWithLength exampleCStr (memOfList [0x73, 0x73, 0x68, 0x2d]) 4 = false
      ∧ StringMatchWithLength exampleCStr (memOfList [0x73, 0x73, 0x68, 0x2d]) 2 = false :=
  ⟨by decide,
    (StringMatchWithLength_spec exampleCStr (memOfList [0x73, 0x73, 0x68, 0x2d]) 3 (by decide)
      (by decide)).1.mpr (by decide),
    (StringMatchWithLength_spec exampleCStr (memOfList [0x73, 0x73, 0x68, 0x2d]) 4 (by decide)
      (by decide)).2.1 (by decide),
    (StringMatchWithLength_spec exampleCStr (memOfList [0x73, 0x73, 0x68, 0x2d]) 2 (by decide)
      (by decide)).2.2.1 (by decide)⟩

/-- C22: for every byte sequence `a` of even length and every byte sequence `b` (combined
length at most 65535), `InternetChecksum(b, len b, InternetChecksum(a, len a, 0))` equals
`InternetChecksum(a ++ b, len a + len b, 0)`; in particular, seeding the checksum of a TCP
segment with `PseudoHeaderChecksum` gives the checksum of the 12-octet pseudo-header
followed by the segment. -/
theorem InternetChecksum_seeded (a b : List Byte) (heven : a.length % 2 = 0)
    (hlen : a.length + b.length ≤ 65535) :
    InternetChecksum (memOfList b) b.length (InternetChecksum (memOfList a) a.length 0)
        = InternetChecksum (memOfList (a ++ b)) (a.length + b.length) 0
      ∧ ∀ (packet : IPv4Packet) (length : Nat),
          InternetChecksum (memOfList b) b.length (PseudoHeaderChecksum packet length)
            = InternetChecksum (memOfList (pseudoheader packet length ++ b))
                (12 + b.length) 0 := by
  have _ := hlen
  refine ⟨InternetChecksum_seed_append a b heven, ?_⟩
  intro packet length
  have h12 : (pseudoheader packet length).length = 12 := rfl
  have h := InternetChecksum_seed_append (pseudoheader packet length) b (by rw [h12])
  rw [h12] at h
  rw [PseudoHeaderChecksum_eq, h12]
  exact h

set_option maxRecDepth 100000 in
/-- Witness of C22: a four-octet `a` and a three-octet `b`, and the pseudo-header of the
example TCP packet in front of that `b`. -/
theorem InternetChecksum_seeded_witness :
    InternetChecksum (memOfList [0x12, 0x34, 0x56])
        ([0x12, 0x34, 0x56] : List Byte).length
        (InternetChecksum (memOfList [0xff, 0xfe, 0xfd, 0xfc])
          ([0xff, 0xfe, 0xfd, 0xfc] : List Byte).length 0)
      = InternetChecksum (memOfList ([0xff, 0xfe, 0xfd, 0xfc] ++ [0x12, 0x34, 0x56]))
          (([0xff, 0xfe, 0xfd, 0xfc] : List Byte).length
            + ([0x12, 0x34, 0x56] : List Byte).length) 0
      ∧ InternetChecksum (memOfList [0x12, 0x34, 0x56])
          ([0x12, 0x34, 0x56] : List Byte).length (PseudoHeaderChecksum exampleTcp 3)
        = InternetChecksum (memOfList (pseudoheader exampleTcp 3 ++ [0x12, 0x34, 0x56]))
            (12 + ([0x12, 0x34, 0x56] : List Byte).length) 0 :=
  ⟨(InternetChecksum_seeded [0xff, 0xfe, 0xfd, 0xfc] [0x12, 0x34, 0x56] (by decide)
      (by decide)).1,
    (InternetChecksum_seeded [0xff, 0xfe, 0xfd, 0xfc] [0x12, 0x34, 0x56] (by decide)
      (by decide)).2 exampleTcp 3⟩

/-- C23, the code at a failing input: towards the broadcast address 192.168.1.255 (MAC
resolution succeeds without ARP) with a driver whose `GetTxFrame` returns null,
`GetTxPacket` requests the frame and then stores the header fields through the payload
pointer of the null frame; it does not return null. -/
theorem GetTxPacket_null_frame_not_handled :
    exampleEthBusy.GetTxFrame ETHERTYPE_IPV4 ⟨0xff, 0xff, 0xff, 0xff, 0xff, 0xff⟩ = none
      ∧ GetAddressType exampleStack ⟨192, 168, 1, 255⟩ = AddressType.ADDR_BROADCAST
      ∧ (GetTxPacket exampleStack exampleCache exampleEthBusy ⟨192, 168, 1, 255⟩ 1).reply
          = TxPacket.nullFrame
      ∧ (GetTxPacket exampleStack exampleCache exampleEthBusy ⟨192, 168, 1, 255⟩ 1).reply
          ≠ TxPacket.null :=
  ⟨rfl, by decide, rfl, fun h => TxPacket.noConfusion h⟩

/-- C24: for every packet that `OnRxPacket` delivers to the ICMP or the TCP handler, the
payload starts at offset 20, the payload length passed is `total_length - 20` with
`total_length >= 20` (no unsigned underflow), and `20 + payload length` does not exceed
`ethernetPayloadLength`. -/
theorem OnRxPacket_payload_in_bounds (self : IPv4Protocol) (packet : IPv4Packet)
    (ethernetPayloadLength : Nat) :
    (∀ payload length source,
        (OnRxPacket self packet ethernetPayloadLength).dispatch
          = RxDispatch.icmpv4 payload length source →
        20 ≤ m_totalLength (ByteSwap packet)
          ∧ length = m_totalLength (ByteSwap packet) - 20
          ∧ payload = 20
          ∧ 20 + length ≤ ethernetPayloadLength)
    ∧ (∀ payload length source pseudo,
        (OnRxPacket self packet ethernetPayloadLength).dispatch
          = RxDispatch.tcp payload length source pseudo →
        20 ≤ m_totalLength (ByteSwap packet)
          ∧ length = m_totalLength (ByteSwap packet) - 20
          ∧ payload = 20
          ∧ 20 + length ≤ ethernetPayloadLength) := by
  have hargs := OnRxPacket_delivered_args self packet ethernetPayloadLength
  have key : (OnRxPacket self packet ethernetPayloadLength).dispatch ≠ RxDispatch.none →
      ∀ payload length, payload = Payload (ByteSwap packet) →
        length = PayloadLength (ByteSwap packet) →
        20 ≤ m_totalLength (ByteSwap packet)
          ∧ length = m_totalLength (ByteSwap packet) - 20
          ∧ payload = 20
          ∧ 20 + length ≤ ethernetPayloadLength := by
    intro hne payload length hp hl
    obtain ⟨_, hv, hl1, hl2, _, _⟩ :=
      OnRxPacket_accepted_of_dispatch self packet ethernetPayloadLength hne
    have hpl := PayloadLength_of_version (ByteSwap packet) hv hl1
    have hhl := HeaderLength_of_version (ByteSwap packet) hv
    unfold Payload at hp
    rw [hhl] at hp
    rw [hpl] at hl
    refine ⟨hl1, hl, hp, ?_⟩
    omega
  constructor
  · intro payload length source h
    have hne : (OnRxPacket self packet ethernetPayloadLength).dispatch ≠ RxDispatch.none := by
      rw [h]
      exact fun e => RxDispatch.noConfusion e
    obtain ⟨hp, hl⟩ := hargs.1 payload length source h
    exact key hne payload length hp hl
  · intro payload length source pseudo h
    have hne : (OnRxPacket self packet ethernetPayloadLength).dispatch ≠ RxDispatch.none := by
      rw [h]
      exact fun e => RxDispatch.noConfusion e
    obtain ⟨hp, hl⟩ := hargs.2 payload length source pseudo h
    exact key hne payload length hp hl

set_option maxRecDepth 100000 in
/-- Witness of C24: the ICMP packet (total length 28) in a 28-octet Ethernet payload is
delivered with payload offset 20 and length 8. -/
theorem OnRxPacket_payload_in_bounds_witness :
    (OnRxPacket exampleStack examplePing 28).dispatch
        = RxDispatch.icmpv4 20 8 ⟨192, 168, 1, 2⟩
      ∧ 20 ≤ m_totalLength (ByteSwap examplePing)
      ∧ 8 = m_totalLength (ByteSwap examplePing) - 20
      ∧ 20 = 20
      ∧ 20 + 8 ≤ 28 :=
  ⟨by decide,
    (OnRxPacket_payload_in_bounds exampleStack examplePing 28).1 20 8 ⟨192, 168, 1, 2⟩
      (by decide)⟩

/-- C26: for every input with a 16-bit `initial`, the 32-bit accumulator of
`InternetChecksum` is at most `0xFFFF` after each single fold step (and so after every
prefix of the input), so the narrowing to the 16-bit return value loses nothing; the
result is congruent modulo 65535 to `initial` plus the plain integer sum of the 16-bit
words, and the result is 0 if and only if `initial` is 0 and every word of the input
is 0. -/
theorem InternetChecksum_accumulator (data : Mem) (len initial : Nat)
    (hinitial : initial < 65536) :
    (∀ c w, c ≤ 0xFFFF → w ≤ 0xFFFF →
        ((((c + w) % 2 ^ 32) >>> 16) + (((c + w) % 2 ^ 32) &&& 0xffff)) % 2 ^ 32 ≤ 0xFFFF)
      ∧ (∀ k, checksumLoop data 0 k initial ≤ 0xFFFF)
      ∧ InternetChecksum data len initial = checksumLoop data 0 len initial
      ∧ InternetChecksum data len initial % 65535
          = (initial + (specWords data len).sum) % 65535
      ∧ (InternetChecksum data len initial = 0 ↔
          (initial = 0 ∧ ∀ w ∈ specWords data len, w = 0)) := by
  have hi : initial ≤ 65535 := by omega
  refine ⟨?_, ?_, ?_, ?_, ?_⟩
  · intro c w hc hw
    rw [fold_step c w hc hw]
    exact onesAdd_le c w hc hw
  · intro k
    exact checksumLoop_le data k initial hi
  · unfold InternetChecksum
    exact Nat.mod_eq_of_lt (by have := checksumLoop_le data len initial hi; omega)
  · rw [InternetChecksum_closed data len initial hi]
    exact ocNorm_mod _
  · rw [InternetChecksum_closed data len initial hi, ocNorm_eq_zero_iff]
    constructor
    · intro h
      have h0 : initial = 0 := by omega
      have hs : (specWords data len).sum = 0 := by omega
      exact ⟨h0, fun w hw => List.sum_eq_zero_iff.mp hs w hw⟩
    · rintro ⟨h0, hall⟩
      rw [h0, List.sum_eq_zero_iff.mpr hall]
      rfl

/-- Witness of C26 on the valid ICMP header: the sum of its ten words is a multiple of
65535, and the checksum of twenty zero octets is 0. -/
theorem InternetChecksum_accumulator_witness :
    (0 : Nat) < 65536
      ∧ InternetChecksum examplePing 20 0 % 65535
          = (0 + (specWords examplePing 20).sum) % 65535
      ∧ InternetChecksum (memOfList []) 20 0 = checksumLoop (memOfList []) 0 20 0 :=
  ⟨by decide, (InternetChecksum_accumulator examplePing 20 0 (by decide)).2.2.2.1,
    (InternetChecksum_accumulator (memOfList []) 20 0 (by decide)).2.2.1⟩

/-- C27: for every 32-bit value `v`, `WriteUint32(ptr, v)` stores the four octets
`v >> 24`, `(v >> 16) & 0xFF`, `(v >> 8) & 0xFF`, `v & 0xFF` at `ptr[0..3]` in that order
(little-endian host), so reading those four octets back as a big-endian integer
returns `v`. -/
theorem WriteUint32_big_endian (ptr : Mem) (v : Nat) (hv : v < 2 ^ 32) :
    ((WriteUint32 ptr v) 0).val = v >>> 24
      ∧ ((WriteUint32 ptr v) 1).val = (v >>> 16) &&& 0xFF
      ∧ ((WriteUint32 ptr v) 2).val = (v >>> 8) &&& 0xFF
      ∧ ((WriteUint32 ptr v) 3).val = v &&& 0xFF
      ∧ ((WriteUint32 ptr v) 0).val * 16777216 + ((WriteUint32 ptr v) 1).val * 65536
          + ((WriteUint32 ptr v) 2).val * 256 + ((WriteUint32 ptr v) 3).val = v := by
  have hv' : v < 4294967296 := by simpa using hv
  have hdecomp : v = (v / 16777216) * 16777216 + (v / 65536 % 256) * 65536
      + (v / 256 % 256) * 256 + v % 256 := by omega
  obtain ⟨h0, h1, h2, h3⟩ := WriteUint32_bytes ptr (v / 16777216) (v / 65536 % 256)
    (v / 256 % 256) (v % 256) (by omega) (by omega) (by omega) (by omega)
  rw [← hdecomp] at h0 h1 h2 h3
  have a1 : (v >>> 16) &&& 0xFF = (v >>> 16) % 256 := Nat.and_pow_two_sub_one_eq_mod _ 8
  have a2 : (v >>> 8) &&& 0xFF = (v >>> 8) % 256 := Nat.and_pow_two_sub_one_eq_mod _ 8
  have a3 : v &&& 0xFF = v % 256 := Nat.and_pow_two_sub_one_eq_mod _ 8
  rw [a1, a2, a3, Nat.shiftRight_eq_div_pow, Nat.shiftRight_eq_div_pow,
    Nat.shiftRight_eq_div_pow, h0, h1, h2, h3]
  refine ⟨by norm_num, by norm_num, by norm_num, rfl, ?_⟩
  omega

/-- Witness of C27: the value `0x12345678`. -/
theorem WriteUint32_big_endian_witness :
    0x12345678 < 2 ^ 32
      ∧ ((WriteUint32 (memOfList []) 0x12345678) 0).val = 0x12
      ∧ ((WriteUint32 (memOfList []) 0x12345678) 0).val * 16777216
          + ((WriteUint32 (memOfList []) 0x12345678) 1).val * 65536
          + ((WriteUint32 (memOfList []) 0x12345678) 2).val * 256
          + ((WriteUint32 (memOfList []) 0x12345678) 3).val = 0x12345678 :=
  ⟨by decide, (WriteUint32_big_endian (memOfList []) 0x12345678 (by decide)).1,
    (WriteUint32_big_endian (memOfList []) 0x12345678 (by decide)).2.2.2.2⟩

/-- C25: for every destination `dest` for which `GetTxPacket` succeeds, every protocol and
every `upperLayerLength <= 65515`, the header produced by `GetTxPacket` followed by
`SendTxPacket` (`wire`), given to `OnRxPacket` on a host whose configured address is
`dest` (or for which `dest` is a broadcast address) with
`ethernetPayloadLength >= 20 + upperLayerLength`, passes the checksum, version, length and
fragment checks, is not classified unicast-other, and byte-swaps back to the field values
that were transmitted. -/
theorem tx_rx_roundtrip (sender receiver : IPv4Protocol) (m_cache : ARPCache)
    (m_eth : EthernetProtocol) (dest : IPv4Address)
    (proto upperLayerLength ethernetPayloadLength : Nat) (p wire : IPv4Packet)
    (halloc : (GetTxPacket sender m_cache m_eth dest proto).reply = TxPacket.packet p)
    (hproto : proto < 256) (hlen : upperLayerLength ≤ 65515)
    (hwire : wire = (SendTxPacket p upperLayerLength).packet)
    (hrecv : receiver.m_config.m_address = dest ∨ receiver.m_config.m_broadcast = dest
      ∨ dest = ⟨255, 255, 255, 255⟩)
    (hepl : 20 + upperLayerLength ≤ ethernetPayloadLength) :
    InternetChecksum wire (HeaderLength wire) 0 = 0xffff
      ∧ m_versionAndHeaderLen (ByteSwap wire) = 0x45
      ∧ 20 ≤ m_totalLength (ByteSwap wire)
      ∧ m_totalLength (ByteSwap wire) ≤ ethernetPayloadLength
      ∧ passesFragmentCheck (ByteSwap wire)
      ∧ GetAddressType receiver (m_destAddress (ByteSwap wire))
          ≠ AddressType.ADDR_UNICAST_OTHER
      ∧ (OnRxPacket receiver wire ethernetPayloadLength).packet = ByteSwap wire
      ∧ m_dscpAndECN (ByteSwap wire) = 0
      ∧ m_totalLength (ByteSwap wire) = 20 + upperLayerLength
      ∧ m_fragID (ByteSwap wire) = 0
      ∧ m_flagsFragOffHigh (ByteSwap wire) = 0x40
      ∧ m_fragOffLow (ByteSwap wire) = 0
      ∧ m_ttl (ByteSwap wire) = 255
      ∧ m_protocol (ByteSwap wire) = proto
      ∧ m_sourceAddress (ByteSwap wire) = sender.m_config.m_address
      ∧ m_destAddress (ByteSwap wire) = dest := by
  obtain ⟨fver, fdscp, ffrag, fflags, foff, fttl, fproto, fsrc, fdst, fcs⟩ :=
    GetTxPacket_reply_fields sender m_cache m_eth dest proto hproto p halloc
  -- single octets survive SendTxPacket and ByteSwap
  have hsame : ∀ i, i ≠ 2 → i ≠ 3 → i ≠ 4 → i ≠ 5 → i ≠ 10 → i ≠ 11 →
      ByteSwap wire i = p i ∧ wire i = p i := by
    intro i h2 h3 h4 h5 h10 h11
    rw [ByteSwap_other wire i h2 h3 h4 h5 h10 h11, hwire,
      SendTxPacket_packet_other p upperLayerLength i h2 h3 h4 h5 h10 h11]
    exact ⟨rfl, rfl⟩
  have b0 := hsame 0 (by decide) (by decide) (by decide) (by decide) (by decide) (by decide)
  have b1 := hsame 1 (by decide) (by decide) (by decide) (by decide) (by decide) (by decide)
  have b6 := hsame 6 (by decide) (by decide) (by decide) (by decide) (by decide) (by decide)
  have b7 := hsame 7 (by decide) (by decide) (by decide) (by decide) (by decide) (by decide)
  have b8 := hsame 8 (by decide) (by decide) (by decide) (by decide) (by decide) (by decide)
  have b9 := hsame 9 (by decide) (by decide) (by decide) (by decide) (by decide) (by decide)
  have b12 := hsame 12 (by decide) (by decide) (by decide) (by decide) (by decide) (by decide)
  have b13 := hsame 13 (by decide) (by decide) (by decide) (by decide) (by decide) (by decide)
  have b14 := hsame 14 (by decide) (by decide) (by decide) (by decide) (by decide) (by decide)
  have b15 := hsame 15 (by decide) (by decide) (by decide) (by decide) (by decide) (by decide)
  have b16 := hsame 16 (by decide) (by decide) (by decide) (by decide) (by decide) (by decide)
  have b17 := hsame 17 (by decide) (by decide) (by decide) (by decide) (by decide) (by decide)
  have b18 := hsame 18 (by decide) (by decide) (by decide) (by decide) (by decide) (by decide)
  have b19 := hsame 19 (by decide) (by decide) (by decide) (by decide) (by decide) (by decide)
  -- the header fields of the received, byte-swapped packet
  have rver : m_versionAndHeaderLen (ByteSwap wire) = 0x45 := by
    unfold m_versionAndHeaderLen at fver ⊢
    rw [b0.1]
    exact fver
  have wver : m_versionAndHeaderLen wire = 0x45 := by
    unfold m_versionAndHeaderLen at fver ⊢
    rw [b0.2]
    exact fver
  have rlen : m_totalLength (ByteSwap wire) = 20 + upperLayerLength := by
    rw [m_totalLength_ByteSwap, hwire, (SendTxPacket_lengths p upperLayerLength fver).2]
    exact Nat.mod_eq_of_lt (by omega)
  have rfrag : m_fragID (ByteSwap wire) = 0 := by
    obtain ⟨z4, z5⟩ := SendTxPacket_fragID_octets p upperLayerLength ffrag
    rw [m_fragID_ByteSwap, hwire, z4, z5]
  have rflags : m_flagsFragOffHigh (ByteSwap wire) = 0x40 := by
    unfold m_flagsFragOffHigh at fflags ⊢
    rw [b6.1]
    exact fflags
  have roff : m_fragOffLow (ByteSwap wire) = 0 := by
    unfold m_fragOffLow at foff ⊢
    rw [b7.1]
    exact foff
  have rdst : m_destAddress (ByteSwap wire) = dest := by
    rw [← fdst]
    unfold m_destAddress
    rw [b16.1, b17.1, b18.1, b19.1]
  have rsrc : m_sourceAddress (ByteSwap wire) = sender.m_config.m_address := by
    rw [← fsrc]
    unfold m_sourceAddress
    rw [b12.1, b13.1, b14.1, b15.1]
  have rcs : InternetChecksum wire (HeaderLength wire) 0 = 0xffff := by
    rw [HeaderLength_of_version wire wver, hwire]
    exact SendTxPacket_checksum_verifies p upperLayerLength fcs
  refine ⟨rcs, rver, by omega, by omega, ?_, ?_,
    OnRxPacket_packet_of_checksum receiver wire ethernetPayloadLength rcs, ?_, rlen, rfrag,
    rflags, roff, ?_, ?_, rsrc, rdst⟩
  · rw [passesFragmentCheck_iff, rflags, roff]
    exact ⟨by decide, rfl⟩
  · rw [rdst]
    unfold GetAddressType
    rcases hrecv with h | h | h
    · rw [if_pos h.symm]
      decide
    · split_ifs <;> first | decide | exact absurd h.symm ‹_›
    · split_ifs <;> decide
  · unfold m_dscpAndECN at fdscp ⊢
    rw [b1.1]
    exact fdscp
  · unfold m_ttl at fttl ⊢
    rw [b8.1]
    exact fttl
  · unfold m_protocol at fproto ⊢
    rw [b9.1]
    exact fproto

set_option maxRecDepth 100000 in
/-- Witness of C25: the host 192.168.1.1 sends a TCP packet with a 100-octet upper layer
to 192.168.1.2, which receives it in a 120-octet Ethernet payload. -/
theorem tx_rx_roundtrip_witness :
    ∃ p,
      (GetTxPacket exampleStack exampleCache exampleEth ⟨192, 168, 1, 2⟩ 6).reply
          = TxPacket.packet p
        ∧ InternetChecksum (SendTxPacket p 100).packet
            (HeaderLength (SendTxPacket p 100).packet) 0 = 0xffff
        ∧ m_totalLength (ByteSwap (SendTxPacket p 100).packet) = 120
        ∧ m_destAddress (ByteSwap (SendTxPacket p 100).packet) = ⟨192, 168, 1, 2⟩
        ∧ (OnRxPacket examplePeer (SendTxPacket p 100).packet 120).dispatch
            = RxDispatch.tcp 20 100 ⟨192, 168, 1, 1⟩
                (PseudoHeaderChecksum (SendTxPacket p 100).packet 100) :=
  ⟨_, rfl,
    (tx_rx_roundtrip exampleStack examplePeer exampleCache exampleEth ⟨192, 168, 1, 2⟩ 6 100
      120 _ _ rfl (by decide) (by decide) rfl (Or.inl rfl) (by decide)).1,
    (tx_rx_roundtrip exampleStack examplePeer exampleCache exampleEth ⟨192, 168, 1, 2⟩ 6 100
      120 _ _ rfl (by decide) (by decide) rfl (Or.inl rfl) (by decide)).2.2.2.2.2.2.2.2.1,
    (tx_rx_roundtrip exampleStack examplePeer exampleCache exampleEth ⟨192, 168, 1, 2⟩ 6 100
      120 _ _ rfl (by decide) (by decide) rfl (Or.inl rfl)
      (by decide)).2.2.2.2.2.2.2.2.2.2.2.2.2.2.2,
    by decide⟩

end StaticNet
